import Mathlib

/-!
Shallow embedding of the anomaly-analysis core of the VIFA-Pro video
forensics pipeline (src/vifa_pro/forensik_video/main.py) together with
proofs about its per-frame classification, duplicate verification,
regional compression (ELA) analysis, event localization and FERM
(Forensic Evidence Reliability Matrix) scoring.

Modelling conventions:
* Python floats are modelled as rationals; machine rounding is not at
  issue in any statement below, only the algebraic structure of the
  formulas.
* Image decoding, SSIM computation on pixel data, SIFT/RANSAC matching
  and ELA difference images are external collaborators of the core under
  analysis; they enter the embedding as an explicit environment that maps
  frame indices to their externally computed results, mirroring the code,
  which consults them through library calls keyed by the frame images.
* Python dicts whose keys are strings are modelled as association lists
  with in-place update (insertion order preserved, keys unique), matching
  dict semantics; Python lists are Lean lists.
* Presentation-only fields of the source dataclasses (artifact paths,
  plot handles, explanation prose) are not needed by any claim and are
  omitted from the record types.
-/

/-- Configured SSIM drop threshold, CONFIG["SSIM_DISCONTINUITY_DROP"] = 0.30. -/
def SSIM_DISCONTINUITY_DROP : ℚ := 30 / 100

/-- Configured optical-flow threshold, CONFIG["OPTICAL_FLOW_Z_THRESH"] = 5.0. -/
def OPTICAL_FLOW_Z_THRESH : ℚ := 5

/-- Configured duplication confirmation threshold, CONFIG["DUPLICATION_SSIM_CONFIRM"] = 0.80. -/
def DUPLICATION_SSIM_CONFIRM : ℚ := 80 / 100

/-- Configured minimum SIFT match count, CONFIG["SIFT_MIN_MATCH_COUNT"] = 10. -/
def SIFT_MIN_MATCH_COUNT : Nat := 10

/-- A value stored in a metrics dict: numeric or text (for example the
color_cluster_jump entry is a text arrow, ssim_drop is numeric). -/
inductive MVal where
  | num (q : ℚ)
  | txt (s : String)
deriving Repr, DecidableEq

/-- In-place-or-append write to an association list, the semantics of
`d[k] = v` on a Python dict: an existing key is overwritten in place,
a new key is appended at the end. -/
def dictSet (m : List (String × MVal)) (k : String) (v : MVal) : List (String × MVal) :=
  match m with
  | [] => [(k, v)]
  | (k0, v0) :: rest => if k0 = k then (k0, v) :: rest else (k0, v0) :: dictSet rest k v

/-- Lookup in an association list, the semantics of `d.get(k)`. -/
def dictGet (m : List (String × MVal)) (k : String) : Option MVal :=
  match m with
  | [] => none
  | (k0, v0) :: rest => if k0 = k then some v0 else dictGet rest k

/-- Numeric lookup: the value at key k when present and numeric. -/
def numAt (m : List (String × MVal)) (k : String) : Option ℚ :=
  match dictGet m k with
  | some (MVal.num v) => some v
  | _ => none

/-- The Evidence dataclass: accumulated reason tags, named metrics, and a
confidence tier stored as the Indonesian tier strings used by the code
(N/A, RENDAH, SEDANG, TINGGI, SANGAT TINGGI). -/
structure Evidence where
  reasons : List String
  metrics : List (String × MVal)
  confidence : String
deriving Repr, DecidableEq

/-- The Evidence default value (empty reasons and metrics, confidence N/A). -/
def emptyEvidence : Evidence :=
  { reasons := [], metrics := [], confidence := "N/A" }

/-- The FrameInfo dataclass restricted to the fields the analysis passes
read or write: index, timestamp, perceptual hash, classification type,
SSIM to the previous frame, optical-flow magnitude, color cluster id and
the owned Evidence record. -/
structure FrameInfo where
  index : Nat
  timestamp : ℚ
  hash : Option String
  type : String
  ssim_to_prev : Option ℚ
  optical_flow_mag : Option ℚ
  color_cluster : Option Int
  evidence_obj : Evidence
deriving Repr, DecidableEq

/-- A freshly extracted frame: type original, no evidence yet. -/
def mkFrame (i : Nat) (ts : ℚ) (h : Option String) : FrameInfo :=
  { index := i, timestamp := ts, hash := h, type := "original",
    ssim_to_prev := none, optical_flow_mag := none, color_cluster := none,
    evidence_obj := emptyEvidence }

/-- A grayscale image as seen by the duplicate verifier: its shape and its
extreme pixel intensities (all the verifier inspects before handing the
pair to the SSIM collaborator). -/
structure GrayImg where
  rows : Nat
  cols : Nat
  maxVal : ℚ
  minVal : ℚ
deriving Repr, DecidableEq

/-- The result record returned by compare_sift_enhanced: success flag,
optionally an inlier count (present only when a homography was fitted),
good-match count and inlier ratio. -/
structure SiftResult where
  success : Bool
  inliers : Option Nat
  good_matches : Nat
  inlier_ratio : ℚ
deriving Repr, DecidableEq

/-- The external collaborators of the core, keyed by frame index: image
loading, pairwise SSIM, pairwise SIFT/RANSAC matching, and ELA difference
data (max difference together with the 2-D difference array). -/
structure Env where
  img : Nat → Option GrayImg
  ssimPair : Nat → Nat → ℚ
  sift : Nat → Nat → SiftResult
  ela : Nat → Option (ℚ × List (List ℚ))

/-- Python round to d decimal places (ties to even), used when the code
stores rounded metric values. -/
def pyround (d : Nat) (q : ℚ) : ℚ :=
  let scaled : ℚ := q * ((10 : ℚ) ^ d)
  let fl : ℤ := ⌊scaled⌋
  let frac : ℚ := scaled - (fl : ℚ)
  let r : ℤ :=
    if frac > 1 / 2 then fl + 1
    else if frac < 1 / 2 then fl
    else if fl % 2 = 0 then fl else fl + 1
  (r : ℚ) / ((10 : ℚ) ^ d)

/-! ## Stage 2: baseline comparison (insertion detection)

main.py lines 2148-2158: any frame whose hash is absent from the baseline
hash set is typed anomaly_insertion, gains the reason "Frame tidak ada di
baseline" and has its confidence forced to SANGAT TINGGI. -/

/-- Per-frame baseline check of run_tahap_2_analisis_temporal. -/
def insertion_check (base_hashes : List String) (f : FrameInfo) : FrameInfo :=
  match f.hash with
  | some h =>
    if h ∉ base_hashes then
      { f with type := "anomaly_insertion",
               evidence_obj := { f.evidence_obj with
                 reasons := f.evidence_obj.reasons ++ ["Frame tidak ada di baseline"],
                 confidence := "SANGAT TINGGI" } }
    else f
  | none => f

/-- The baseline comparison pass over the frame sequence. -/
def baseline_pass (base_hashes : List String) (fs : List FrameInfo) : List FrameInfo :=
  fs.map (insertion_check base_hashes)

/-! ## Stage 3, analysis 2: SSIM discontinuity detection

main.py lines 2258-2303: for i ≥ 1 with both SSIM values present,
drop = ssim[i-1] - ssim[i]; drop > threshold appends the drastic-drop
reason, OTHERWISE (elif) ssim[i] < 0.7 appends the very-low reason. -/

/-- The SSIM discontinuity check applied to frame i with predecessor
frame i-1; returns the updated frame i. -/
def ssim_check (f_prev f_curr : FrameInfo) : FrameInfo :=
  match f_prev.ssim_to_prev, f_curr.ssim_to_prev with
  | some sp, some sc =>
    let ssim_drop := sp - sc
    if ssim_drop > SSIM_DISCONTINUITY_DROP then
      { f_curr with evidence_obj := { f_curr.evidence_obj with
          reasons := f_curr.evidence_obj.reasons ++ ["Penurunan Drastis SSIM"],
          metrics := dictSet f_curr.evidence_obj.metrics "ssim_drop"
            (MVal.num (pyround 4 ssim_drop)) } }
    else if sc < 7 / 10 then
      { f_curr with evidence_obj := { f_curr.evidence_obj with
          reasons := f_curr.evidence_obj.reasons ++ ["SSIM Sangat Rendah"],
          metrics := dictSet f_curr.evidence_obj.metrics "ssim_absolute_low"
            (MVal.num (pyround 4 sc)) } }
    else f_curr
  | _, _ => f_curr

/-! ## Stage 3, analysis 1: optical-flow spike detection

main.py lines 2211-2217: for every frame with a positive flow magnitude,
when the MAD is nonzero, the modified z-score 0.6745 (v - median) / MAD
is computed, and its absolute value above the configured threshold
appends the spike reason and the rounded z-score metric. The median and
MAD are computed once per run from the positive flow samples and enter
here as parameters. -/

/-- The optical-flow spike check applied to one frame. -/
def flow_check (median_flow mad_flow : ℚ) (f : FrameInfo) : FrameInfo :=
  match f.optical_flow_mag with
  | some v =>
    if 0 < v then
      if mad_flow ≠ 0 then
        let z_score := (6745 / 10000) * (v - median_flow) / mad_flow
        if |z_score| > OPTICAL_FLOW_Z_THRESH then
          { f with evidence_obj := { f.evidence_obj with
              reasons := f.evidence_obj.reasons ++ ["Lonjakan Aliran Optik"],
              metrics := dictSet f.evidence_obj.metrics "optical_flow_z_score"
                (MVal.num (pyround 2 z_score)) } }
        else f
      else f
    else f
  | none => f

/-! ## Stage 3, analysis 3: color-cluster scene-change detection

main.py lines 2311-2315: for i at least 1, a change of color cluster
against the predecessor appends the scene-change reason and a textual
jump metric. -/

/-- The K-Means scene-change check applied to frame i with predecessor
frame i-1; returns the updated frame i. -/
def cluster_check (f_prev f_curr : FrameInfo) : FrameInfo :=
  match f_curr.color_cluster, f_prev.color_cluster with
  | some cc, some cp =>
    if cc ≠ cp then
      { f_curr with evidence_obj := { f_curr.evidence_obj with
          reasons := f_curr.evidence_obj.reasons ++ ["Perubahan Adegan (dari K-Means)"],
          metrics := dictSet f_curr.evidence_obj.metrics "color_cluster_jump"
            (MVal.txt (toString cp ++ " → " ++ toString cc)) } }
    else f_curr
  | _, _ => f_curr

/-! ## Stage 3, supporting method 1: duplicate frame verification

main.py lines 2353-2417: frames are grouped by exact hash; for each group
with more than one member, every later member is compared against the
first member. The pair is skipped when either image fails to load, the
shapes differ, or the data range (max - min of the FIRST image) is zero;
otherwise, when SSIM exceeds the confirmation threshold AND the SIFT
collaborator succeeds with enough inliers, the later frame is reclassified
anomaly_duplication and its metrics updated. -/

/-- Append index i to the bucket of hash h in the ordered group map,
the semantics of defaultdict(list) appends. -/
def addHash (m : List (String × List Nat)) (h : String) (i : Nat) :
    List (String × List Nat) :=
  match m with
  | [] => [(h, [i])]
  | (k, v) :: rest => if k = h then (k, v ++ [i]) :: rest else (k, v) :: addHash rest h i

/-- hash_map: group frame indices by exact hash value, in first-occurrence
order (frames without a hash are skipped). -/
def hash_map (fs : List FrameInfo) : List (String × List Nat) :=
  fs.foldl (fun m f =>
    match f.hash with
    | some h => addHash m h f.index
    | none => m) []

/-- dup_candidates: the hash groups with at least two members. -/
def dup_candidates (fs : List FrameInfo) : List (String × List Nat) :=
  (hash_map fs).filter (fun p => 1 < p.2.length)

/-- The mutation applied to a confirmed duplicate frame: reclassify as
anomaly_duplication, append the duplication reason, and record the source
frame and the SIFT statistics in the metrics dict. -/
def dup_update (idx1 : Nat) (ssim_val : ℚ) (s : SiftResult) (f : FrameInfo) : FrameInfo :=
  { f with
    type := "anomaly_duplication",
    evidence_obj := { f.evidence_obj with
      reasons := f.evidence_obj.reasons ++ ["Duplikasi dari frame " ++ toString idx1],
      metrics :=
        dictSet (dictSet (dictSet (dictSet (dictSet f.evidence_obj.metrics
          "source_frame" (MVal.num idx1))
          "ssim_to_source" (MVal.num (pyround 4 ssim_val)))
          "sift_inliers" (MVal.num (s.inliers.getD 0)))
          "sift_good_matches" (MVal.num s.good_matches))
          "sift_inlier_ratio" (MVal.num (pyround 3 s.inlier_ratio)) } }

/-- Whether a candidate pair passes the pre-SSIM checks: both images load,
the shapes agree, and the data range of the first image is nonzero. -/
def pair_precheck (env : Env) (idx1 idx2 : Nat) : Bool :=
  match env.img idx1, env.img idx2 with
  | some im1, some im2 =>
    decide (im1.rows = im2.rows ∧ im1.cols = im2.cols ∧ im1.maxVal - im1.minVal ≠ 0)
  | _, _ => false

/-- Whether a candidate pair that passed the precheck is confirmed as a
duplication: SSIM strictly above the threshold and a successful SIFT
result with at least the minimum inlier count (a missing inlier field
counts as zero, matching sift_result.get with default 0). -/
def pair_confirmed (env : Env) (idx1 idx2 : Nat) : Bool :=
  decide (env.ssimPair idx1 idx2 > DUPLICATION_SSIM_CONFIRM) &&
    ((env.sift idx1 idx2).success &&
      decide (SIFT_MIN_MATCH_COUNT ≤ ((env.sift idx1 idx2).inliers.getD 0)))

/-- Process one candidate pair (group head idx1, later member idx2):
update the frame with index idx2 exactly when the precheck and the
confirmation both succeed. -/
def process_pair (env : Env) (fs : List FrameInfo) (idx1 idx2 : Nat) : List FrameInfo :=
  if pair_precheck env idx1 idx2 && pair_confirmed env idx1 idx2 then
    fs.map (fun f =>
      if f.index = idx2 then dup_update idx1 (env.ssimPair idx1 idx2) (env.sift idx1 idx2) f
      else f)
  else fs

/-- Process one hash group: compare every later member against the first. -/
def process_group (env : Env) (fs : List FrameInfo) : List Nat → List FrameInfo
  | [] => fs
  | idx1 :: rest => rest.foldl (fun acc idx2 => process_pair env acc idx1 idx2) fs

/-- The full duplicate-verification pass: process every candidate group
(the group map is computed once, from the incoming frame list). -/
def dup_pass (env : Env) (fs : List FrameInfo) : List FrameInfo :=
  (dup_candidates fs).foldl (fun acc p => process_group env acc p.2) fs

/-! ## Stage 3, evidence synthesis: classification and regional ELA

main.py lines 2428-2495. Per frame with at least one reason: an original
frame becomes anomaly_discontinuity; confidence is SANGAT TINGGI for
duplication/insertion and otherwise RENDAH / SEDANG / TINGGI for
1 / 2 / more than 2 reasons; then, for frames of at least SEDANG
confidence that are not duplication/insertion, the ELA collaborator is
consulted and analyze_ela_regions (lines 259-295) scores the grid. -/

/-- Grid cell origins range(0, n, step) of the regional analysis. -/
def gridStarts (n step : Nat) : List Nat :=
  (List.range ((n + step - 1) / step)).map (fun i => i * step)

/-- The pixels of the grid cell with origin (y, x): rows y to y+g, columns
x to x+g, clipped at the array bounds. -/
def cellRegion (arr : List (List ℚ)) (y x g : Nat) : List ℚ :=
  (((arr.drop y).take g).map (fun row => (row.drop x).take g)).flatten

/-- Maximum of a list of rationals (0 on the empty list; every use is
guarded by a nonemptiness check, as in the code). -/
def listMax : List ℚ → ℚ
  | [] => 0
  | a :: rest => rest.foldl max a

/-- One suspicious region record of analyze_ela_regions (the std field of
the source dict is irrational in general and inspected by no claim, so it
is not carried). -/
structure RegionInfo where
  x : Nat
  y : Nat
  mean_ela : ℚ
  max_ela : ℚ
  suspicion_level : String
deriving Repr, DecidableEq

/-- The result record of analyze_ela_regions. -/
structure ElaRegionAnalysis where
  total_regions : Nat
  suspicious_regions : List RegionInfo
  suspicious_count : Nat
  grid_size : Nat
deriving Repr, DecidableEq

/-- analyze_ela_regions (main.py lines 259-295): partition the difference
array into grid cells; a nonempty cell is suspicious when its mean exceeds
30 or its max exceeds 100, with level high when the mean exceeds 50. -/
def analyze_ela_regions (arr : List (List ℚ)) (grid_size : Nat) : ElaRegionAnalysis :=
  let height := arr.length
  let width := (arr.headD []).length
  let suspicious :=
    (gridStarts height grid_size).flatMap (fun y =>
      (gridStarts width grid_size).flatMap (fun x =>
        let region := cellRegion arr y x grid_size
        if region.length = 0 then []
        else
          let mean_val := region.sum / (region.length : ℚ)
          let max_val := listMax region
          if mean_val > 30 ∨ max_val > 100 then
            [{ x := x, y := y, mean_ela := mean_val, max_ela := max_val,
               suspicion_level := if mean_val > 50 then "high" else "medium" }]
          else []))
  { total_regions := (height / grid_size) * (width / grid_size),
    suspicious_regions := suspicious,
    suspicious_count := suspicious.length,
    grid_size := grid_size }

/-- The per-frame classification step (main.py lines 2428-2446): frames
with no reason are untouched; otherwise an original frame becomes
anomaly_discontinuity and the confidence tier is resolved from the type
and the current reason count. -/
def classify_frame (f : FrameInfo) : FrameInfo :=
  if f.evidence_obj.reasons = [] then f
  else
    let t := if f.type = "original" then "anomaly_discontinuity" else f.type
    let num_reasons := f.evidence_obj.reasons.length
    let conf :=
      if t = "anomaly_duplication" ∨ t = "anomaly_insertion" then "SANGAT TINGGI"
      else if 2 < num_reasons then "TINGGI"
      else if 1 < num_reasons then "SEDANG"
      else "RENDAH"
    { f with type := t, evidence_obj := { f.evidence_obj with confidence := conf } }

/-- The per-frame regional ELA step (main.py lines 2448-2469): runs only
for frames of confidence at least SEDANG that are not duplication or
insertion and whose ELA data is available; when suspicious cells exist it
appends the ELA reason (if absent) and the two ELA metrics, and when more
than 5 cells are suspicious it escalates the confidence by exactly one
tier (SEDANG to TINGGI, TINGGI to SANGAT TINGGI). -/
def ela_step (env : Env) (f : FrameInfo) : FrameInfo :=
  if (f.evidence_obj.confidence = "SEDANG" ∨ f.evidence_obj.confidence = "TINGGI" ∨
        f.evidence_obj.confidence = "SANGAT TINGGI") ∧
      ¬ (f.type = "anomaly_duplication" ∨ f.type = "anomaly_insertion") then
    match env.ela f.index with
    | none => f
    | some (max_diff, arr) =>
      let ra := analyze_ela_regions arr 50
      if 0 < ra.suspicious_count then
        let reasons1 :=
          if "Anomali Kompresi (ELA)" ∈ f.evidence_obj.reasons then f.evidence_obj.reasons
          else f.evidence_obj.reasons ++ ["Anomali Kompresi (ELA)"]
        let metrics1 :=
          dictSet (dictSet f.evidence_obj.metrics "ela_max_difference" (MVal.num max_diff))
            "ela_suspicious_regions" (MVal.num ra.suspicious_count)
        let conf1 :=
          if 5 < ra.suspicious_count then
            if f.evidence_obj.confidence = "SEDANG" then "TINGGI"
            else if f.evidence_obj.confidence = "TINGGI" then "SANGAT TINGGI"
            else f.evidence_obj.confidence
          else f.evidence_obj.confidence
        { f with evidence_obj := { f.evidence_obj with
            reasons := reasons1, metrics := metrics1, confidence := conf1 } }
      else f
  else f

/-- One frame of the synthesis loop: classification followed by the
regional ELA analysis (both act on the same frame in program order). -/
def sintesis_step (env : Env) (f : FrameInfo) : FrameInfo :=
  ela_step env (classify_frame f)

/-- The evidence-synthesis loop over all frames (mutations of distinct
frames are independent, so the loop is a map). -/
def sintesis_pass (env : Env) (fs : List FrameInfo) : List FrameInfo :=
  fs.map (sintesis_step env)

/-! ## Stage 4: event localization

main.py lines 2702-2747: a single forward scan keeps at most one open
event; an anomalous frame extends the open event exactly when its type
matches and its index is the end index plus one, any other anomalous frame
closes the open event and opens a new one, and a non-anomalous frame
closes the open event. -/

/-- The tampering-event record built by the localization scan (the
presentation fields image, reasons text, artifact paths and explanations
of the source dict are inspected by no claim and are not carried). -/
structure EventLoc where
  event : String
  start_frame : Nat
  end_frame : Nat
  start_ts : ℚ
  end_ts : ℚ
  frame_count : Nat
  confidence : String
  all_metrics : List (List (String × MVal))
  duration : ℚ
deriving Repr, DecidableEq

/-- conf_hierarchy dict of the localizer, with .get default 0. -/
def conf_hierarchy (c : String) : Nat :=
  if c = "SANGAT TINGGI" then 4
  else if c = "TINGGI" then 3
  else if c = "SEDANG" then 2
  else if c = "RENDAH" then 1
  else 0

/-- Extending the open event with the next contiguous same-type anomalous
frame: the end index and timestamp advance, the frame count increments,
the confidence becomes the tier maximum, and the metric map of the frame
is appended to the collected per-member metrics. -/
def extend_event (e : EventLoc) (f : FrameInfo) : EventLoc :=
  { e with
    end_frame := f.index,
    end_ts := f.timestamp,
    frame_count := e.frame_count + 1,
    confidence :=
      if conf_hierarchy e.confidence < conf_hierarchy f.evidence_obj.confidence
      then f.evidence_obj.confidence else e.confidence,
    all_metrics := e.all_metrics ++ [f.evidence_obj.metrics] }

/-- Opening a new event at an anomalous frame. -/
def new_event (f : FrameInfo) : EventLoc :=
  { event := f.type, start_frame := f.index, end_frame := f.index,
    start_ts := f.timestamp, end_ts := f.timestamp, frame_count := 1,
    confidence := f.evidence_obj.confidence,
    all_metrics := [f.evidence_obj.metrics], duration := 0 }

/-- One step of the localization scan, on the state (closed events, open
event). -/
def localize_step (st : List EventLoc × Option EventLoc) (f : FrameInfo) :
    List EventLoc × Option EventLoc :=
  if f.type.startsWith "anomaly" then
    match st.2 with
    | some e =>
      if e.event = f.type ∧ f.index = e.end_frame + 1 then (st.1, some (extend_event e f))
      else (st.1 ++ [e], some (new_event f))
    | none => (st.1, some (new_event f))
  else
    match st.2 with
    | some e => (st.1 ++ [e], none)
    | none => st

/-- The full localization scan, closing the still-open event at the end. -/
def localize_events (fs : List FrameInfo) : List EventLoc :=
  let st := fs.foldl localize_step ([], none)
  match st.2 with
  | some e => st.1 ++ [e]
  | none => st.1

/-! ## Stage 4: event severity

main.py lines 2992-3029 (calculate_event_severity), called after the scan
with the duration field set to end_ts - start_ts (line 2752). -/

/-- Setting the duration of a localized event, main.py line 2752. -/
def enhance_event (e : EventLoc) : EventLoc :=
  { e with duration := e.end_ts - e.start_ts }

/-- Base severity by event type, with .get default 0.3. -/
def event_type_base_severity (t : String) : ℚ :=
  if t = "anomaly_insertion" then 8 / 10
  else if t = "anomaly_duplication" then 6 / 10
  else if t = "anomaly_discontinuity" then 5 / 10
  else 3 / 10

/-- Confidence multiplier of the severity formula, with .get default 0.5. -/
def confidence_multiplier (c : String) : ℚ :=
  if c = "SANGAT TINGGI" then 12 / 10
  else if c = "TINGGI" then 1
  else if c = "SEDANG" then 8 / 10
  else if c = "RENDAH" then 6 / 10
  else if c = "N/A" then 5 / 10
  else 5 / 10

/-- calculate_event_severity: base severity by type, scaled by the
confidence multiplier, a duration bonus and a frame-count bonus, then
clamped to the interval from 0 to 1. -/
def calculate_event_severity (event : EventLoc) : ℚ :=
  let severity := event_type_base_severity event.event
  let severity := severity * confidence_multiplier event.confidence
  let severity :=
    if 5 < event.duration then severity * (12 / 10)
    else if 2 < event.duration then severity * (11 / 10)
    else severity
  let severity := if 10 < event.frame_count then severity * (11 / 10) else severity
  min 1 (max 0 severity)

/-! ## FERM builder: false-positive assessment and technical severity

main.py lines 1037-1058 and 1093-1126 of
generate_forensic_evidence_matrix, together with the confidence histogram
collected over anomalous frames at the end of stage 3 (lines 2510-2513
and 2556). -/

/-- Increment the counter of key k in an ordered histogram, the semantics
of Counter updates. -/
def incCounter (m : List (String × Nat)) (k : String) : List (String × Nat) :=
  match m with
  | [] => [(k, 1)]
  | (k0, c) :: rest => if k0 = k then (k0, c + 1) :: rest else (k0, c) :: incCounter rest k

/-- The confidence-tier histogram over anomalous frames (main.py lines
2510-2513), stored on the result as confidence_distribution. -/
def confidence_distribution (fs : List FrameInfo) : List (String × Nat) :=
  fs.foldl (fun m f =>
    if f.type.startsWith "anomaly" then incCounter m f.evidence_obj.confidence else m) []

/-- The false_positive_risks table, with .get default 0.5. -/
def false_positive_risk_const (level : String) : ℚ :=
  if level = "SANGAT TINGGI" then 5 / 100
  else if level = "TINGGI" then 15 / 100
  else if level = "SEDANG" then 30 / 100
  else if level = "RENDAH" then 50 / 100
  else 50 / 100

/-- Total count of a histogram. -/
def distTotal (dist : List (String × Nat)) : Nat :=
  (dist.map Prod.snd).sum

/-- The weighted false-positive risk of main.py lines 1046-1050, on the
branch where a confidence distribution is present (an all-zero histogram
falls back to 0.5 exactly as the code guards a zero denominator). -/
def weighted_fp_risk (dist : List (String × Nat)) : ℚ :=
  if 0 < distTotal dist then
    (dist.map (fun p => (p.2 : ℚ) * false_positive_risk_const p.1)).sum / (distTotal dist : ℚ)
  else 1 / 2

/-- reliability_score = 1.0 - weighted_risk, main.py line 1057. -/
def reliability_score (dist : List (String × Nat)) : ℚ :=
  1 - weighted_fp_risk dist

/-- Fallback technical severity by confidence tier (main.py lines
1117-1124), with .get default 0.3. -/
def confidence_fallback_severity (c : String) : ℚ :=
  if c = "SANGAT TINGGI" then 9 / 10
  else if c = "TINGGI" then 7 / 10
  else if c = "SEDANG" then 5 / 10
  else if c = "RENDAH" then 3 / 10
  else if c = "N/A" then 1 / 10
  else 3 / 10

/-- The per-frame technical severity of the FERM builder (main.py lines
1098-1124): the sum of the normalized recognized metrics that are present,
divided by the total number of metric entries and clamped at 1; when the
metric dict is empty, the confidence-tier fallback constant. -/
def frame_severity (ev : Evidence) : ℚ :=
  let s : ℚ :=
    (match numAt ev.metrics "ssim_drop" with
     | some v => min 1 (v * 2)
     | none => 0) +
    (match numAt ev.metrics "optical_flow_z_score" with
     | some v => min 1 (|v| / 10)
     | none => 0) +
    (match numAt ev.metrics "sift_inlier_ratio" with
     | some v => v
     | none => 0) +
    (match numAt ev.metrics "ela_max_difference" with
     | some v => min 1 (v / 200)
     | none => 0)
  if ev.metrics = [] then confidence_fallback_severity ev.confidence
  else min 1 (s / (ev.metrics.length : ℚ))

/-! ## Helper lemmas -/

/-- Every false-positive risk constant lies between 0 and 1. -/
lemma false_positive_risk_const_bounds (s : String) :
    0 ≤ false_positive_risk_const s ∧ false_positive_risk_const s ≤ 1 := by
  unfold false_positive_risk_const
  split_ifs <;> norm_num

/-- The cast of a histogram total is the sum of the cast counts. -/
lemma distTotal_cast (dist : List (String × Nat)) :
    (distTotal dist : ℚ) = (dist.map (fun p => (p.2 : ℚ))).sum := by
  unfold distTotal
  induction dist with
  | nil => simp
  | cons a l ih => simp [ih]

/-! ## Claim C4: machinery

The localization scan is analyzed through an invariant: relative to the
frames processed so far, every closed event (and the open one) covers
exactly a contiguous run of same-type frames. -/

/-- Finalization of the scan state: close the still-open event. -/
def localize_finalize (st : List EventLoc × Option EventLoc) : List EventLoc :=
  match st.2 with
  | some e => st.1 ++ [e]
  | none => st.1

/-- An event covers, within the processed frames, exactly the frames with
index between its bounds, and they all carry its type. -/
def event_covers (done : List FrameInfo) (e : EventLoc) : Prop :=
  e.start_frame ≤ e.end_frame ∧
  (∀ f ∈ done, e.start_frame ≤ f.index → f.index ≤ e.end_frame → f.type = e.event) ∧
  (∀ k, e.start_frame ≤ k → k ≤ e.end_frame →
    ∃ f ∈ done, f.index = k ∧ f.type = e.event)

/-- Covering is preserved when a frame with a strictly larger index than
everything processed arrives (it lies beyond the event's end). -/
lemma event_covers_snoc (done : List FrameInfo) (e : EventLoc) (g : FrameInfo)
    (hc : event_covers done e) (hlt : ∀ f ∈ done, f.index < g.index) :
    event_covers (done ++ [g]) e := by
  obtain ⟨h1, h2, h3⟩ := hc
  obtain ⟨fe, hfe, hfei, -⟩ := h3 e.end_frame h1 (le_refl _)
  have hend : e.end_frame < g.index := by
    rw [← hfei]
    exact hlt fe hfe
  refine ⟨h1, ?_, ?_⟩
  · intro f hf hs he
    rcases List.mem_append.mp hf with hf | hf
    · exact h2 f hf hs he
    · rw [List.mem_singleton] at hf
      subst hf
      exact absurd he (by omega)
  · intro k hs he
    obtain ⟨f, hf, hfi, hft⟩ := h3 k hs he
    exact ⟨f, List.mem_append_left _ hf, hfi, hft⟩

/-- Extending the open event with the next contiguous same-type frame
preserves covering. -/
lemma event_covers_extend (done : List FrameInfo) (e : EventLoc) (g : FrameInfo)
    (hc : event_covers done e) (hlt : ∀ f ∈ done, f.index < g.index)
    (hidx : g.index = e.end_frame + 1) (hty : e.event = g.type) :
    event_covers (done ++ [g]) (extend_event e g) := by
  obtain ⟨h1, h2, h3⟩ := hc
  have hse : (extend_event e g).start_frame = e.start_frame := rfl
  have hee : (extend_event e g).end_frame = g.index := rfl
  have hev : (extend_event e g).event = e.event := rfl
  refine ⟨?_, ?_, ?_⟩
  · rw [hse, hee, hidx]
    omega
  · intro f hf hs he
    rw [hse] at hs
    rw [hee, hidx] at he
    rw [hev]
    rcases List.mem_append.mp hf with hf | hf
    · rcases (by omega : f.index ≤ e.end_frame ∨ f.index = e.end_frame + 1) with hle | heq
      · exact h2 f hf hs hle
      · exfalso
        have := hlt f hf
        omega
    · rw [List.mem_singleton] at hf
      subst hf
      exact hty.symm
  · intro k hs he
    rw [hse] at hs
    rw [hee, hidx] at he
    rw [hev]
    rcases (by omega : k ≤ e.end_frame ∨ k = e.end_frame + 1) with hle | heq
    · obtain ⟨f, hf, hfi, hft⟩ := h3 k hs hle
      exact ⟨f, List.mem_append_left _ hf, hfi, hft⟩
    · exact ⟨g, List.mem_append_right _ (List.mem_singleton_self g), by omega, hty.symm⟩

/-- A newly opened event covers exactly its single opening frame. -/
lemma event_covers_new (done : List FrameInfo) (g : FrameInfo)
    (hlt : ∀ f ∈ done, f.index < g.index) :
    event_covers (done ++ [g]) (new_event g) := by
  have hse : (new_event g).start_frame = g.index := rfl
  have hee : (new_event g).end_frame = g.index := rfl
  have hev : (new_event g).event = g.type := rfl
  refine ⟨?_, ?_, ?_⟩
  · rw [hse, hee]
  · intro f hf hs he
    rw [hse] at hs
    rw [hee] at he
    rw [hev]
    rcases List.mem_append.mp hf with hf | hf
    · exfalso
      have := hlt f hf
      omega
    · rw [List.mem_singleton] at hf
      subst hf
      rfl
  · intro k hs he
    rw [hse] at hs
    rw [hee] at he
    rw [hev]
    exact ⟨g, List.mem_append_right _ (List.mem_singleton_self g), by omega, rfl⟩

/-- Step equation: an anomalous frame meeting the extension condition
extends the open event. -/
lemma localize_step_extend (locs : List EventLoc) (e : EventLoc) (f : FrameInfo)
    (hA : f.type.startsWith "anomaly" = true)
    (hcond : e.event = f.type ∧ f.index = e.end_frame + 1) :
    localize_step (locs, some e) f = (locs, some (extend_event e f)) := by
  unfold localize_step
  simp only [hA, if_true, if_pos hcond]

/-- Step equation: an anomalous frame failing the extension condition
closes the open event and opens a new one. -/
lemma localize_step_break (locs : List EventLoc) (e : EventLoc) (f : FrameInfo)
    (hA : f.type.startsWith "anomaly" = true)
    (hcond : ¬ (e.event = f.type ∧ f.index = e.end_frame + 1)) :
    localize_step (locs, some e) f = (locs ++ [e], some (new_event f)) := by
  unfold localize_step
  simp only [hA, if_true, if_neg hcond]

/-- Step equation: an anomalous frame with no open event opens one. -/
lemma localize_step_open (locs : List EventLoc) (f : FrameInfo)
    (hA : f.type.startsWith "anomaly" = true) :
    localize_step (locs, none) f = (locs, some (new_event f)) := by
  unfold localize_step
  simp only [hA, if_true]

/-- Step equation: a non-anomalous frame closes the open event. -/
lemma localize_step_close (locs : List EventLoc) (e : EventLoc) (f : FrameInfo)
    (hA : ¬ f.type.startsWith "anomaly" = true) :
    localize_step (locs, some e) f = (locs ++ [e], none) := by
  unfold localize_step
  simp only [if_neg hA]

/-- Step equation: a non-anomalous frame with no open event is a no-op. -/
lemma localize_step_skip (locs : List EventLoc) (f : FrameInfo)
    (hA : ¬ f.type.startsWith "anomaly" = true) :
    localize_step (locs, none) f = (locs, none) := by
  unfold localize_step
  simp only [if_neg hA]

/-- The scan invariant: starting from a state whose events all cover the
processed prefix, every event of the finalized scan over the remaining
frames covers the whole list. -/
lemma localize_fold_covers (rest : List FrameInfo) (done : List FrameInfo)
    (locs : List EventLoc) (op : Option EventLoc)
    (hcross : ∀ f ∈ done, ∀ g ∈ rest, f.index < g.index)
    (hpair : List.Pairwise (fun a b : FrameInfo => a.index < b.index) rest)
    (hlocs : ∀ e ∈ locs, event_covers done e)
    (hop : ∀ e, op = some e → event_covers done e) :
    ∀ e ∈ localize_finalize (rest.foldl localize_step (locs, op)),
      event_covers (done ++ rest) e := by
  induction rest generalizing done locs op with
  | nil =>
    intro e he
    rw [List.append_nil]
    simp only [List.foldl_nil] at he
    unfold localize_finalize at he
    cases hop2 : op with
    | some e0 =>
      rw [hop2] at he
      simp only at he
      rcases List.mem_append.mp he with hm | hm
      · exact hlocs e hm
      · rw [List.mem_singleton] at hm
        subst hm
        exact hop e hop2
    | none =>
      rw [hop2] at he
      simp only at he
      exact hlocs e he
  | cons g rest ih =>
    have hltg : ∀ f ∈ done, f.index < g.index := fun f hf =>
      hcross f hf g (List.mem_cons_self g rest)
    have hcross2 : ∀ f ∈ done ++ [g], ∀ x ∈ rest, f.index < x.index := by
      intro f hf x hx
      rcases List.mem_append.mp hf with hf | hf
      · exact hcross f hf x (List.mem_cons_of_mem g hx)
      · rw [List.mem_singleton] at hf
        subst hf
        exact (List.pairwise_cons.mp hpair).1 x hx
    have hpair2 := (List.pairwise_cons.mp hpair).2
    intro e he
    simp only [List.foldl_cons] at he
    have hres : (done ++ [g]) ++ rest = done ++ g :: rest := by
      rw [List.append_assoc, List.singleton_append]
    rw [← hres]
    by_cases hA : g.type.startsWith "anomaly" = true
    · cases hopc : op with
      | some e0 =>
        by_cases hcond : e0.event = g.type ∧ g.index = e0.end_frame + 1
        · rw [hopc, localize_step_extend locs e0 g hA hcond] at he
          refine ih (done ++ [g]) locs (some (extend_event e0 g)) hcross2 hpair2 ?_ ?_ e he
          · intro x hx
            exact event_covers_snoc done x g (hlocs x hx) hltg
          · intro x hx
            injection hx with hx
            subst hx
            exact event_covers_extend done e0 g (hop e0 hopc) hltg hcond.2 hcond.1
        · rw [hopc, localize_step_break locs e0 g hA hcond] at he
          refine ih (done ++ [g]) (locs ++ [e0]) (some (new_event g)) hcross2 hpair2 ?_ ?_ e he
          · intro x hx
            rcases List.mem_append.mp hx with hx | hx
            · exact event_covers_snoc done x g (hlocs x hx) hltg
            · rw [List.mem_singleton] at hx
              subst hx
              exact event_covers_snoc done x g (hop x hopc) hltg
          · intro x hx
            injection hx with hx
            subst hx
            exact event_covers_new done g hltg
      | none =>
        rw [hopc, localize_step_open locs g hA] at he
        refine ih (done ++ [g]) locs (some (new_event g)) hcross2 hpair2 ?_ ?_ e he
        · intro x hx
          exact event_covers_snoc done x g (hlocs x hx) hltg
        · intro x hx
          injection hx with hx
          subst hx
          exact event_covers_new done g hltg
    · cases hopc : op with
      | some e0 =>
        rw [hopc, localize_step_close locs e0 g hA] at he
        refine ih (done ++ [g]) (locs ++ [e0]) none hcross2 hpair2 ?_ ?_ e he
        · intro x hx
          rcases List.mem_append.mp hx with hx | hx
          · exact event_covers_snoc done x g (hlocs x hx) hltg
          · rw [List.mem_singleton] at hx
            subst hx
            exact event_covers_snoc done x g (hop x hopc) hltg
        · intro x hx
          exact absurd hx (by simp)
      | none =>
        rw [hopc, localize_step_skip locs g hA] at he
        refine ih (done ++ [g]) locs none hcross2 hpair2 ?_ ?_ e he
        · intro x hx
          exact event_covers_snoc done x g (hlocs x hx) hltg
        · intro x hx
          exact absurd hx (by simp)

/-! ## Claim C4 -/

/-- Claim C4: over an index-sorted frame sequence, every event produced
by the localization scan contains only frames of its single type, and
its member indices are exactly the contiguous run from its start index
to its end index (every frame of the input inside the bounds has the
event's type, and every index inside the bounds is realized by an input
frame of that type); moreover, at the step level, an anomalous frame
extends the open event iff its type equals the event's type and its
index is the event's end index plus one, and any other anomalous frame
or any type change or gap closes it. -/
theorem c4_event_contiguity (fs : List FrameInfo)
    (hsort : List.Pairwise (fun a b : FrameInfo => a.index < b.index) fs) :
    (∀ e ∈ localize_events fs,
      (∀ f ∈ fs, e.start_frame ≤ f.index → f.index ≤ e.end_frame → f.type = e.event) ∧
      (∀ k, e.start_frame ≤ k → k ≤ e.end_frame →
        ∃ f ∈ fs, f.index = k ∧ f.type = e.event)) ∧
    (∀ (locs : List EventLoc) (e : EventLoc) (f : FrameInfo),
      f.type.startsWith "anomaly" = true →
      (localize_step (locs, some e) f = (locs, some (extend_event e f)) ↔
        (e.event = f.type ∧ f.index = e.end_frame + 1))) := by
  constructor
  · intro e he
    have hfin : localize_events fs = localize_finalize (fs.foldl localize_step ([], none)) :=
      rfl
    rw [hfin] at he
    have hcov := localize_fold_covers fs [] [] none
      (fun f hf => absurd hf (List.not_mem_nil f))
      hsort
      (fun x hx => absurd hx (List.not_mem_nil x))
      (fun x hx => absurd hx (by simp))
      e he
    rw [List.nil_append] at hcov
    exact ⟨hcov.2.1, hcov.2.2⟩
  · intro locs e f hA
    constructor
    · intro heq
      by_contra hcond
      rw [localize_step_break locs e f hA hcond] at heq
      have hfst : locs ++ [e] = locs := congrArg Prod.fst heq
      have hlen := congrArg List.length hfst
      simp at hlen
    · intro hcond
      exact localize_step_extend locs e f hA hcond

/-- Five frames: an original frame, a contiguous discontinuity run at
indices 1 and 2, an original frame at 3, and a duplication at 4. -/
def c4_frames : List FrameInfo :=
  [mkFrame 0 0 none,
   { mkFrame 1 1 none with type := "anomaly_discontinuity" },
   { mkFrame 2 2 none with type := "anomaly_discontinuity" },
   mkFrame 3 3 none,
   { mkFrame 4 4 none with type := "anomaly_duplication" }]

/-- Claim C4 witness: the theorem applied to the concrete sorted frame
sequence. -/
theorem c4_event_contiguity_witness :
    (∀ e ∈ localize_events c4_frames,
      (∀ f ∈ c4_frames, e.start_frame ≤ f.index → f.index ≤ e.end_frame →
        f.type = e.event) ∧
      (∀ k, e.start_frame ≤ k → k ≤ e.end_frame →
        ∃ f ∈ c4_frames, f.index = k ∧ f.type = e.event)) ∧
    (∀ (locs : List EventLoc) (e : EventLoc) (f : FrameInfo),
      f.type.startsWith "anomaly" = true →
      (localize_step (locs, some e) f = (locs, some (extend_event e f)) ↔
        (e.event = f.type ∧ f.index = e.end_frame + 1))) :=
  c4_event_contiguity c4_frames (by decide)

/-! ## Claim C2 -/

/-- Claim C2: on every histogram with a positive total, the FERM
false-positive risk is the weighted average of the per-tier risk
constants, reliability is its complement to 1, the four constants are
0.05 / 0.15 / 0.30 / 0.50, the scenario histogram with two VERY_HIGH and
two LOW frames yields risk 0.275 and reliability 0.725, and the risk lies
in the closed interval from 0 to 1. -/
theorem c2_weighted_fp_risk (dist : List (String × Nat)) (htot : 0 < distTotal dist) :
    weighted_fp_risk dist =
      (dist.map (fun p => (p.2 : ℚ) * false_positive_risk_const p.1)).sum /
        (distTotal dist : ℚ) ∧
    reliability_score dist = 1 - weighted_fp_risk dist ∧
    false_positive_risk_const "SANGAT TINGGI" = 5 / 100 ∧
    false_positive_risk_const "TINGGI" = 15 / 100 ∧
    false_positive_risk_const "SEDANG" = 30 / 100 ∧
    false_positive_risk_const "RENDAH" = 50 / 100 ∧
    weighted_fp_risk [("SANGAT TINGGI", 2), ("RENDAH", 2)] = 275 / 1000 ∧
    reliability_score [("SANGAT TINGGI", 2), ("RENDAH", 2)] = 725 / 1000 ∧
    0 ≤ weighted_fp_risk dist ∧ weighted_fp_risk dist ≤ 1 := by
  have hpos : (0 : ℚ) < (distTotal dist : ℚ) := by exact_mod_cast htot
  have heq : weighted_fp_risk dist =
      (dist.map (fun p => (p.2 : ℚ) * false_positive_risk_const p.1)).sum /
        (distTotal dist : ℚ) := by
    unfold weighted_fp_risk
    rw [if_pos htot]
  have hnum_nonneg :
      0 ≤ (dist.map (fun p => (p.2 : ℚ) * false_positive_risk_const p.1)).sum := by
    apply List.sum_nonneg
    intro x hx
    simp only [List.mem_map] at hx
    obtain ⟨p, _, rfl⟩ := hx
    exact mul_nonneg (by positivity) (false_positive_risk_const_bounds p.1).1
  have hnum_le :
      (dist.map (fun p => (p.2 : ℚ) * false_positive_risk_const p.1)).sum ≤
        (distTotal dist : ℚ) := by
    rw [distTotal_cast]
    apply List.sum_le_sum
    intro p _
    calc (p.2 : ℚ) * false_positive_risk_const p.1
        ≤ (p.2 : ℚ) * 1 := by
          exact mul_le_mul_of_nonneg_left (false_positive_risk_const_bounds p.1).2 (by positivity)
      _ = (p.2 : ℚ) := mul_one _
  refine ⟨heq, rfl, by simp [false_positive_risk_const], by simp [false_positive_risk_const],
    by simp [false_positive_risk_const], by simp [false_positive_risk_const],
    by simp [weighted_fp_risk, distTotal, false_positive_risk_const]; norm_num,
    by simp [reliability_score, weighted_fp_risk, distTotal, false_positive_risk_const];
       norm_num,
    ?_, ?_⟩
  · rw [heq]
    exact div_nonneg hnum_nonneg (le_of_lt hpos)
  · rw [heq]
    exact (div_le_one hpos).mpr hnum_le

/-- Claim C2 witness: the scenario histogram has a positive total and the
theorem applies to it. -/
theorem c2_weighted_fp_risk_witness :
    0 < distTotal [("SANGAT TINGGI", 2), ("RENDAH", 2)] ∧
    (weighted_fp_risk [("SANGAT TINGGI", 2), ("RENDAH", 2)] =
      ([("SANGAT TINGGI", 2), ("RENDAH", 2)].map
        (fun p => (p.2 : ℚ) * false_positive_risk_const p.1)).sum /
        (distTotal [("SANGAT TINGGI", 2), ("RENDAH", 2)] : ℚ) ∧
     reliability_score [("SANGAT TINGGI", 2), ("RENDAH", 2)] =
       1 - weighted_fp_risk [("SANGAT TINGGI", 2), ("RENDAH", 2)] ∧
     false_positive_risk_const "SANGAT TINGGI" = 5 / 100 ∧
     false_positive_risk_const "TINGGI" = 15 / 100 ∧
     false_positive_risk_const "SEDANG" = 30 / 100 ∧
     false_positive_risk_const "RENDAH" = 50 / 100 ∧
     weighted_fp_risk [("SANGAT TINGGI", 2), ("RENDAH", 2)] = 275 / 1000 ∧
     reliability_score [("SANGAT TINGGI", 2), ("RENDAH", 2)] = 725 / 1000 ∧
     0 ≤ weighted_fp_risk [("SANGAT TINGGI", 2), ("RENDAH", 2)] ∧
     weighted_fp_risk [("SANGAT TINGGI", 2), ("RENDAH", 2)] ≤ 1) :=
  ⟨by decide, c2_weighted_fp_risk [("SANGAT TINGGI", 2), ("RENDAH", 2)] (by decide)⟩

/-! ## Claim C3 -/

/-- A frame with SSIM 1 recorded against its predecessor. -/
def c3_prev : FrameInfo :=
  { mkFrame 0 0 none with ssim_to_prev := some 1 }

/-- A frame with SSIM 0.4 against its predecessor: the drop from 1 is 0.6,
above the 0.30 threshold, and 0.4 is also below 0.7. -/
def c3_curr : FrameInfo :=
  { mkFrame 1 1 none with ssim_to_prev := some (2 / 5) }

/-- Claim C3 counterexample: at ssim values 1 then 0.4 the drop 0.6
exceeds the threshold 0.30 and the absolute value 0.4 is below 0.7, yet
the very-low reason is NOT appended, because the very-low check is an
elif of the drastic-drop check rather than an independent check. -/
theorem c3_counterexample :
    (1 : ℚ) - 2 / 5 > SSIM_DISCONTINUITY_DROP ∧
    (2 / 5 : ℚ) < 7 / 10 ∧
    "Penurunan Drastis SSIM" ∈ (ssim_check c3_prev c3_curr).evidence_obj.reasons ∧
    "SSIM Sangat Rendah" ∉ (ssim_check c3_prev c3_curr).evidence_obj.reasons := by
  have hmem : (ssim_check c3_prev c3_curr).evidence_obj.reasons = ["Penurunan Drastis SSIM"] := by
    norm_num [ssim_check, c3_prev, c3_curr, mkFrame, emptyEvidence, SSIM_DISCONTINUITY_DROP]
  refine ⟨by norm_num [SSIM_DISCONTINUITY_DROP], by norm_num, ?_, ?_⟩
  · rw [hmem]
    simp
  · rw [hmem]
    decide

/-- Claim C3 as amended: the drastic-drop reason is appended iff the drop
exceeds the threshold; the very-low reason is appended iff the drop does
NOT exceed the threshold and the SSIM value is below 0.7 (the second
check is an elif of the first); consequently the two reasons never fire
on the same frame. -/
theorem c3_ssim_reasons (f_prev f_curr : FrameInfo) (sp sc : ℚ)
    (hp : f_prev.ssim_to_prev = some sp) (hc : f_curr.ssim_to_prev = some sc)
    (hd : "Penurunan Drastis SSIM" ∉ f_curr.evidence_obj.reasons)
    (hl : "SSIM Sangat Rendah" ∉ f_curr.evidence_obj.reasons) :
    ("Penurunan Drastis SSIM" ∈ (ssim_check f_prev f_curr).evidence_obj.reasons ↔
        sp - sc > SSIM_DISCONTINUITY_DROP) ∧
    ("SSIM Sangat Rendah" ∈ (ssim_check f_prev f_curr).evidence_obj.reasons ↔
        (¬ sp - sc > SSIM_DISCONTINUITY_DROP) ∧ sc < 7 / 10) ∧
    ¬ ("Penurunan Drastis SSIM" ∈ (ssim_check f_prev f_curr).evidence_obj.reasons ∧
        "SSIM Sangat Rendah" ∈ (ssim_check f_prev f_curr).evidence_obj.reasons) := by
  simp only [ssim_check, hp, hc]
  by_cases h1 : sp - sc > SSIM_DISCONTINUITY_DROP
  · rw [if_pos h1]
    simp only [List.mem_append, List.mem_singleton]
    constructor
    · simp [h1]
    constructor
    · simp [hl, h1]
    · rintro ⟨-, hbad⟩
      rcases hbad with hbad | hbad
      · exact hl hbad
      · exact absurd hbad (by decide)
  · rw [if_neg h1]
    by_cases h2 : sc < 7 / 10
    · rw [if_pos h2]
      simp only [List.mem_append, List.mem_singleton]
      refine ⟨?_, ?_, ?_⟩
      · constructor
        · rintro (hbad | hbad)
          · exact absurd hbad hd
          · exact absurd hbad (by decide)
        · intro hbad
          exact absurd hbad h1
      · constructor
        · intro hmem
          exact ⟨h1, h2⟩
        · intro hmem
          right
          trivial
      · rintro ⟨hbad, -⟩
        rcases hbad with hbad | hbad
        · exact hd hbad
        · exact absurd hbad (by decide)
    · rw [if_neg h2]
      constructor
      · constructor
        · intro hbad
          exact absurd hbad hd
        · intro hbad
          exact absurd hbad h1
      constructor
      · constructor
        · intro hbad
          exact absurd hbad hl
        · rintro ⟨-, hbad⟩
          exact absurd hbad h2
      · rintro ⟨hbad, -⟩
        exact hd hbad

/-- Claim C3 witness: the amended theorem applied at ssim values 1 then
0.4 (a drop of 0.6, above the threshold). -/
theorem c3_ssim_reasons_witness :
    ("Penurunan Drastis SSIM" ∈ (ssim_check c3_prev c3_curr).evidence_obj.reasons ↔
        (1 : ℚ) - 2 / 5 > SSIM_DISCONTINUITY_DROP) ∧
    ("SSIM Sangat Rendah" ∈ (ssim_check c3_prev c3_curr).evidence_obj.reasons ↔
        (¬ (1 : ℚ) - 2 / 5 > SSIM_DISCONTINUITY_DROP) ∧ (2 / 5 : ℚ) < 7 / 10) ∧
    ¬ ("Penurunan Drastis SSIM" ∈ (ssim_check c3_prev c3_curr).evidence_obj.reasons ∧
        "SSIM Sangat Rendah" ∈ (ssim_check c3_prev c3_curr).evidence_obj.reasons) :=
  c3_ssim_reasons c3_prev c3_curr 1 (2 / 5) rfl rfl (by decide) (by decide)

/-- Reading back the key just written to a dict. -/
lemma dictGet_dictSet_self (m : List (String × MVal)) (k : String) (v : MVal) :
    dictGet (dictSet m k v) k = some v := by
  induction m with
  | nil => simp [dictSet, dictGet]
  | cons a rest ih =>
    by_cases h : a.1 = k
    · simp [dictSet, dictGet, h]
    · simp only [dictSet, dictGet]
      rw [if_neg h, dictGet, if_neg h]
      exact ih

/-- Writing one key leaves the others unchanged. -/
lemma dictGet_dictSet_ne (m : List (String × MVal)) (k k2 : String) (v : MVal)
    (hne : k ≠ k2) : dictGet (dictSet m k v) k2 = dictGet m k2 := by
  induction m with
  | nil => simp [dictSet, dictGet, hne]
  | cons a rest ih =>
    by_cases h : a.1 = k
    · simp only [dictSet]
      rw [if_pos h, dictGet, dictGet]
      have : ¬ a.1 = k2 := by
        rw [h]
        exact hne
      rw [if_neg this, if_neg this]
    · simp only [dictSet]
      rw [if_neg h, dictGet, dictGet]
      by_cases h2 : a.1 = k2
      · rw [if_pos h2, if_pos h2]
      · rw [if_neg h2, if_neg h2]
        exact ih

/-! ## Machinery for the duplicate-verification pass

The nested loops of the pass are reorganized (provably, below) into a
single map over the frame list with a per-frame function folded over the
flattened list of candidate pairs; all statements about individual frames
go through this form. -/

/-- The per-frame effect of processing one candidate pair. -/
def pairFun (env : Env) (pr : Nat × Nat) (f : FrameInfo) : FrameInfo :=
  if pair_precheck env pr.1 pr.2 && pair_confirmed env pr.1 pr.2 then
    (if f.index = pr.2 then dup_update pr.1 (env.ssimPair pr.1 pr.2) (env.sift pr.1 pr.2) f
     else f)
  else f

/-- The per-frame effect of processing a list of candidate pairs in order. -/
def applyPairs (env : Env) (prs : List (Nat × Nat)) (f : FrameInfo) : FrameInfo :=
  prs.foldl (fun g pr => pairFun env pr g) f

/-- The candidate pairs of one hash group: the first member against every
later member, in order. -/
def groupPairs : List Nat → List (Nat × Nat)
  | [] => []
  | idx1 :: rest => rest.map (fun idx2 => (idx1, idx2))

/-- All candidate pairs of the pass, group by group. -/
def allPairs (fs : List FrameInfo) : List (Nat × Nat) :=
  (dup_candidates fs).flatMap (fun p => groupPairs p.2)

/-- Processing one pair is a map of its per-frame effect. -/
lemma process_pair_eq_map (env : Env) (fs : List FrameInfo) (idx1 idx2 : Nat) :
    process_pair env fs idx1 idx2 = fs.map (pairFun env (idx1, idx2)) := by
  unfold process_pair pairFun
  by_cases hg : pair_precheck env idx1 idx2 && pair_confirmed env idx1 idx2
  · rw [if_pos hg]
    simp only [if_pos hg]
  · rw [if_neg hg]
    simp only [if_neg hg]
    exact (List.map_id fs).symm

/-- Folding pair processing over a pair list is a map of the folded
per-frame effects. -/
lemma foldl_pairs_eq_map (env : Env) (prs : List (Nat × Nat)) (fs : List FrameInfo) :
    prs.foldl (fun acc pr => process_pair env acc pr.1 pr.2) fs =
      fs.map (applyPairs env prs) := by
  induction prs generalizing fs with
  | nil =>
    simp only [List.foldl_nil, applyPairs, List.map_id]
    exact (List.map_id fs).symm
  | cons pr prs ih =>
    simp only [List.foldl_cons]
    rw [show process_pair env fs pr.1 pr.2 = fs.map (pairFun env pr) from
      process_pair_eq_map env fs pr.1 pr.2, ih, List.map_map]
    rfl

/-- Processing one group is the fold over its pair list. -/
lemma process_group_eq_foldl (env : Env) (fs : List FrameInfo) (g : List Nat) :
    process_group env fs g =
      (groupPairs g).foldl (fun acc pr => process_pair env acc pr.1 pr.2) fs := by
  cases g with
  | nil => rfl
  | cons idx1 rest =>
    unfold process_group groupPairs
    rw [List.foldl_map]

/-- The whole duplicate-verification pass is a single map over the frame
list of the per-frame effect of all candidate pairs. -/
lemma dup_pass_eq_map (env : Env) (fs : List FrameInfo) :
    dup_pass env fs = fs.map (applyPairs env (allPairs fs)) := by
  unfold dup_pass allPairs
  rw [← foldl_pairs_eq_map]
  generalize dup_candidates fs = gs
  induction gs generalizing fs with
  | nil => rfl
  | cons g gs ih =>
    simp only [List.foldl_cons, List.flatMap_cons, List.foldl_append]
    rw [process_group_eq_foldl, ih]

/-- dup_update preserves the frame index. -/
lemma dup_update_index (idx1 : Nat) (q : ℚ) (s : SiftResult) (f : FrameInfo) :
    (dup_update idx1 q s f).index = f.index := rfl

/-- pairFun preserves the frame index. -/
lemma pairFun_index (env : Env) (pr : Nat × Nat) (f : FrameInfo) :
    (pairFun env pr f).index = f.index := by
  unfold pairFun
  split_ifs <;> rfl

/-- A pair aimed at a different index leaves the frame untouched. -/
lemma pairFun_ne (env : Env) (pr : Nat × Nat) (f : FrameInfo) (hne : f.index ≠ pr.2) :
    pairFun env pr f = f := by
  unfold pairFun
  by_cases hg : pair_precheck env pr.1 pr.2 && pair_confirmed env pr.1 pr.2
  · rw [if_pos hg, if_neg hne]
  · rw [if_neg hg]

/-- A frame targeted by no pair of the list is untouched. -/
lemma applyPairs_untargeted (env : Env) (prs : List (Nat × Nat)) (f : FrameInfo)
    (hne : ∀ pr ∈ prs, pr.2 ≠ f.index) : applyPairs env prs f = f := by
  induction prs with
  | nil => rfl
  | cons pr prs ih =>
    unfold applyPairs
    simp only [List.foldl_cons]
    rw [pairFun_ne env pr f (fun h => hne pr (List.mem_cons_self pr prs) h.symm)]
    exact ih (fun x hx => hne x (List.mem_cons_of_mem pr hx))

/-- A frame targeted by exactly one pair of the list receives exactly the
effect of that pair. -/
lemma applyPairs_single_target (env : Env) (l1 l2 : List (Nat × Nat)) (idx1 idx2 : Nat)
    (f : FrameInfo) (hfi : f.index = idx2)
    (h1 : ∀ pr ∈ l1, pr.2 ≠ idx2) (h2 : ∀ pr ∈ l2, pr.2 ≠ idx2) :
    applyPairs env (l1 ++ (idx1, idx2) :: l2) f = pairFun env (idx1, idx2) f := by
  unfold applyPairs
  rw [List.foldl_append]
  have hl1 : l1.foldl (fun g pr => pairFun env pr g) f = f :=
    applyPairs_untargeted env l1 f (fun pr hpr => by
      rw [hfi]
      exact h1 pr hpr)
  rw [hl1]
  simp only [List.foldl_cons]
  have hidx : (pairFun env (idx1, idx2) f).index = idx2 := by
    rw [pairFun_index]
    exact hfi
  exact applyPairs_untargeted env l2 (pairFun env (idx1, idx2) f)
    (fun pr hpr => by
      rw [hidx]
      exact h2 pr hpr)

/-- Total number of occurrences of index i across the buckets of a group
map. -/
def occCount (m : List (String × List Nat)) (i : Nat) : Nat :=
  (m.map (fun p => p.2.count i)).sum

/-- Appending to a bucket adds one occurrence of the appended index. -/
lemma addHash_occCount (m : List (String × List Nat)) (h : String) (j i : Nat) :
    occCount (addHash m h j) i = occCount m i + List.count i [j] := by
  induction m with
  | nil => simp [addHash, occCount]
  | cons a rest ih =>
    by_cases hk : a.1 = h
    · simp only [addHash, if_pos hk, occCount, List.map_cons, List.sum_cons,
        List.count_append]
      omega
    · simp only [addHash, if_neg hk, occCount, List.map_cons, List.sum_cons]
      simp only [occCount] at ih
      omega

/-- Folding the grouping step adds at most the occurrences of i among the
frame indices. -/
lemma hash_map_fold_occ (fs : List FrameInfo) (m : List (String × List Nat)) (i : Nat) :
    occCount (fs.foldl (fun m f =>
      match f.hash with
      | some h => addHash m h f.index
      | none => m) m) i ≤
      occCount m i + (fs.map FrameInfo.index).count i := by
  induction fs generalizing m with
  | nil => simp
  | cons f fs ih =>
    simp only [List.foldl_cons, List.map_cons]
    have hcons : (f.index :: fs.map FrameInfo.index).count i =
        List.count i [f.index] + (fs.map FrameInfo.index).count i := by
      rw [← List.singleton_append, List.count_append]
    cases hf : f.hash with
    | none =>
      simp only [hf]
      calc occCount (fs.foldl _ m) i ≤ occCount m i + (fs.map FrameInfo.index).count i := ih m
        _ ≤ occCount m i + ((f.index :: fs.map FrameInfo.index).count i) := by
            rw [hcons]
            omega
    | some h =>
      simp only [hf]
      calc occCount (fs.foldl _ (addHash m h f.index)) i
          ≤ occCount (addHash m h f.index) i + (fs.map FrameInfo.index).count i := ih _
        _ = occCount m i + List.count i [f.index] + (fs.map FrameInfo.index).count i := by
            rw [addHash_occCount]
        _ ≤ occCount m i + ((f.index :: fs.map FrameInfo.index).count i) := by
            rw [hcons]
            omega

/-- With pairwise distinct frame indices, every index occurs at most once
in the hash-group map. -/
lemma hash_map_occ_le (fs : List FrameInfo) (i : Nat)
    (hnd : (fs.map FrameInfo.index).Nodup) : occCount (hash_map fs) i ≤ 1 := by
  have h1 := hash_map_fold_occ fs [] i
  have h2 : (fs.map FrameInfo.index).count i ≤ 1 := List.nodup_iff_count_le_one.mp hnd i
  have h0 : occCount [] i = 0 := rfl
  unfold hash_map
  omega

/-- Candidate filtering only removes occurrences. -/
lemma dup_candidates_occ_le (fs : List FrameInfo) (i : Nat) :
    occCount (dup_candidates fs) i ≤ occCount (hash_map fs) i := by
  unfold dup_candidates occCount
  generalize hash_map fs = m
  induction m with
  | nil => simp
  | cons a rest ih =>
    rw [List.filter_cons]
    by_cases hp : 1 < a.2.length
    · rw [decide_eq_true hp, if_pos rfl]
      simp only [List.map_cons, List.sum_cons]
      omega
    · rw [decide_eq_false hp]
      simp only [Bool.false_eq_true, if_false, List.map_cons, List.sum_cons]
      omega

/-- The targets of a group pair list are the tail of the bucket. -/
lemma groupPairs_targets (g : List Nat) (i : Nat) :
    ((groupPairs g).map Prod.snd).count i ≤ g.count i := by
  cases g with
  | nil => simp [groupPairs]
  | cons a rest =>
    have hmap : (groupPairs (a :: rest)).map Prod.snd = rest := by
      simp [groupPairs, List.map_map]
    rw [hmap, ← List.singleton_append, List.count_append]
    omega

/-- The number of pairs targeting index i is bounded by the occurrences
of i in the candidate buckets. -/
lemma allPairs_targets_le (fs : List FrameInfo) (i : Nat) :
    (((allPairs fs).map Prod.snd).count i) ≤ occCount (dup_candidates fs) i := by
  unfold allPairs
  generalize dup_candidates fs = gs
  induction gs with
  | nil => simp [occCount]
  | cons g gs ih =>
    simp only [List.flatMap_cons, List.map_append, List.count_append, occCount,
      List.map_cons, List.sum_cons]
    have h1 := groupPairs_targets g.2 i
    simp only [occCount] at ih
    omega

/-- With pairwise distinct frame indices, each index is the target of at
most one candidate pair of the whole pass. -/
lemma allPairs_count_le_one (fs : List FrameInfo) (i : Nat)
    (hnd : (fs.map FrameInfo.index).Nodup) :
    (((allPairs fs).map Prod.snd).count i) ≤ 1 :=
  le_trans (allPairs_targets_le fs i)
    (le_trans (dup_candidates_occ_le fs i) (hash_map_occ_le fs i hnd))

/-- Group membership yields the corresponding candidate pair. -/
lemma pair_mem_allPairs (fs : List FrameInfo) (h : String) (idx1 idx2 : Nat)
    (rest : List Nat) (hgrp : (h, idx1 :: rest) ∈ dup_candidates fs)
    (hmem : idx2 ∈ rest) : (idx1, idx2) ∈ allPairs fs := by
  unfold allPairs
  rw [List.mem_flatMap]
  refine ⟨(h, idx1 :: rest), hgrp, ?_⟩
  simp only [groupPairs, List.mem_map]
  exact ⟨idx2, hmem, rfl⟩

/-- With pairwise distinct frame indices, the pair of a group head with a
later member splits the pair list into a unique occurrence whose
neighbours never target the same later member. -/
lemma allPairs_unique_split (fs : List FrameInfo) (h : String) (idx1 idx2 : Nat)
    (rest : List Nat) (hnd : (fs.map FrameInfo.index).Nodup)
    (hgrp : (h, idx1 :: rest) ∈ dup_candidates fs) (hmem : idx2 ∈ rest) :
    ∃ l1 l2, allPairs fs = l1 ++ (idx1, idx2) :: l2 ∧
      (∀ pr ∈ l1, pr.2 ≠ idx2) ∧ (∀ pr ∈ l2, pr.2 ≠ idx2) := by
  obtain ⟨l1, l2, hsplit⟩ := List.append_of_mem (pair_mem_allPairs fs h idx1 idx2 rest hgrp hmem)
  have hcount : (((allPairs fs).map Prod.snd).count idx2) ≤ 1 :=
    allPairs_count_le_one fs idx2 hnd
  rw [hsplit] at hcount
  simp only [List.map_append, List.map_cons, List.count_append,
    List.count_cons_self] at hcount
  have hc1 : (l1.map Prod.snd).count idx2 = 0 := by omega
  have hc2 : (l2.map Prod.snd).count idx2 = 0 := by omega
  refine ⟨l1, l2, hsplit, ?_, ?_⟩
  · intro pr hpr heq
    have : idx2 ∈ l1.map Prod.snd := List.mem_map.mpr ⟨pr, hpr, heq⟩
    rw [← List.count_pos_iff] at this
    omega
  · intro pr hpr heq
    have : idx2 ∈ l2.map Prod.snd := List.mem_map.mpr ⟨pr, hpr, heq⟩
    rw [← List.count_pos_iff] at this
    omega

/-- The regional ELA step never touches a duplication or insertion frame. -/
lemma ela_step_skip_type (env : Env) (g : FrameInfo)
    (hty : g.type = "anomaly_duplication" ∨ g.type = "anomaly_insertion") :
    ela_step env g = g := by
  unfold ela_step
  rw [if_neg (fun hc => hc.2 hty)]

/-- The synthesis step on a frame already typed duplication or insertion:
the type is kept, the confidence is forced to SANGAT TINGGI by the
classifier, and the regional ELA step skips the frame entirely, leaving
reasons and metrics unchanged. -/
lemma sintesis_dup_or_ins (env : Env) (f : FrameInfo)
    (hty : f.type = "anomaly_duplication" ∨ f.type = "anomaly_insertion")
    (hre : f.evidence_obj.reasons ≠ []) :
    (sintesis_step env f).type = f.type ∧
    (sintesis_step env f).evidence_obj.confidence = "SANGAT TINGGI" ∧
    (sintesis_step env f).evidence_obj.reasons = f.evidence_obj.reasons ∧
    (sintesis_step env f).evidence_obj.metrics = f.evidence_obj.metrics := by
  have hno : ¬ f.type = "original" := by
    rcases hty with h | h <;> rw [h] <;> decide
  unfold sintesis_step classify_frame
  rw [if_neg hre]
  simp only [if_neg hno, if_pos hty]
  rw [ela_step_skip_type]
  · exact ⟨rfl, rfl, rfl, rfl⟩
  · exact hty

/-! ## Claim C5 -/

/-- Claim C5 as amended, part of the statement: the duplicate pass in its
map form, the decoded confirmation condition (strict SSIM inequality),
the exact effect on the unique targeted frame on confirmation (type
anomaly_duplication, confidence SANGAT TINGGI after synthesis, metric
source_frame recording the group head), and no effect when either
condition fails. -/
theorem c5_duplication (env : Env) (fs : List FrameInfo) (h : String)
    (idx1 idx2 : Nat) (rest : List Nat) (f : FrameInfo)
    (hnd : (fs.map FrameInfo.index).Nodup)
    (hgrp : (h, idx1 :: rest) ∈ dup_candidates fs)
    (hmem : idx2 ∈ rest)
    (hfi : f.index = idx2)
    (hpre : pair_precheck env idx1 idx2 = true) :
    dup_pass env fs = fs.map (applyPairs env (allPairs fs)) ∧
    (pair_confirmed env idx1 idx2 = true ↔
      (DUPLICATION_SSIM_CONFIRM < env.ssimPair idx1 idx2 ∧
        (env.sift idx1 idx2).success = true ∧
        SIFT_MIN_MATCH_COUNT ≤ (env.sift idx1 idx2).inliers.getD 0)) ∧
    (pair_confirmed env idx1 idx2 = true →
      applyPairs env (allPairs fs) f =
        dup_update idx1 (env.ssimPair idx1 idx2) (env.sift idx1 idx2) f ∧
      (sintesis_step env (applyPairs env (allPairs fs) f)).type = "anomaly_duplication" ∧
      (sintesis_step env (applyPairs env (allPairs fs) f)).evidence_obj.confidence =
        "SANGAT TINGGI" ∧
      numAt (sintesis_step env (applyPairs env (allPairs fs) f)).evidence_obj.metrics
        "source_frame" = some (idx1 : ℚ)) ∧
    (¬ pair_confirmed env idx1 idx2 = true → applyPairs env (allPairs fs) f = f) := by
  obtain ⟨l1, l2, hsplit, h1, h2⟩ :=
    allPairs_unique_split fs h idx1 idx2 rest hnd hgrp hmem
  have happly : applyPairs env (allPairs fs) f = pairFun env (idx1, idx2) f := by
    rw [hsplit]
    exact applyPairs_single_target env l1 l2 idx1 idx2 f hfi h1 h2
  refine ⟨dup_pass_eq_map env fs, ?_, ?_, ?_⟩
  · unfold pair_confirmed
    simp [Bool.and_eq_true, decide_eq_true_eq]
  · intro hconf
    have hupd : applyPairs env (allPairs fs) f =
        dup_update idx1 (env.ssimPair idx1 idx2) (env.sift idx1 idx2) f := by
      rw [happly]
      unfold pairFun
      rw [hpre, hconf]
      simp only [Bool.and_self, if_true, hfi, if_pos rfl]
    have htyd : (dup_update idx1 (env.ssimPair idx1 idx2) (env.sift idx1 idx2) f).type =
        "anomaly_duplication" := rfl
    have hred : (dup_update idx1 (env.ssimPair idx1 idx2) (env.sift idx1 idx2)
        f).evidence_obj.reasons ≠ [] := by
      simp [dup_update]
    have hsyn := sintesis_dup_or_ins env
      (dup_update idx1 (env.ssimPair idx1 idx2) (env.sift idx1 idx2) f)
      (Or.inl htyd) hred
    refine ⟨hupd, ?_, ?_, ?_⟩
    · rw [hupd, hsyn.1, htyd]
    · rw [hupd]
      exact hsyn.2.1
    · have hget : dictGet (dup_update idx1 (env.ssimPair idx1 idx2) (env.sift idx1 idx2)
          f).evidence_obj.metrics "source_frame" = some (MVal.num (idx1 : ℚ)) := by
        simp only [dup_update]
        rw [dictGet_dictSet_ne _ _ _ _ (by decide), dictGet_dictSet_ne _ _ _ _ (by decide),
          dictGet_dictSet_ne _ _ _ _ (by decide), dictGet_dictSet_ne _ _ _ _ (by decide),
          dictGet_dictSet_self]
      rw [hupd]
      unfold numAt
      rw [hsyn.2.2.2, hget]
  · intro hconf
    rw [happly]
    unfold pairFun
    rw [Bool.not_eq_true] at hconf
    rw [hconf, Bool.and_false]
    simp

/-- Three frames, the last two sharing one perceptual hash. -/
def c5_frames : List FrameInfo :=
  [mkFrame 0 0 (some "a"), mkFrame 1 1 (some "h"), mkFrame 2 2 (some "h")]

/-- A non-degenerate grayscale image. -/
def c5_img : GrayImg :=
  { rows := 2, cols := 2, maxVal := 10, minVal := 0 }

/-- An environment reporting SSIM exactly 0.80 (the configured threshold)
and a successful SIFT match with 15 inliers for every pair. -/
def c5_env_boundary : Env :=
  { img := fun _ => some c5_img,
    ssimPair := fun _ _ => 80 / 100,
    sift := fun _ _ =>
      { success := true, inliers := some 15, good_matches := 20, inlier_ratio := 3 / 4 },
    ela := fun _ => none }

/-- Claim C5 counterexample: frames 1 and 2 share a hash, the SSIM against
the group head is exactly 0.80 — AT LEAST the confirmation threshold, as
the claim requires — and SIFT succeeds with 15 inliers of at least the
minimum 10; yet the pass leaves every frame untouched and classified
original, because the code compares SSIM with a strict inequality. -/
theorem c5_counterexample :
    DUPLICATION_SSIM_CONFIRM ≤ c5_env_boundary.ssimPair 1 2 ∧
    (c5_env_boundary.sift 1 2).success = true ∧
    SIFT_MIN_MATCH_COUNT ≤ (c5_env_boundary.sift 1 2).inliers.getD 0 ∧
    (c5_frames.map FrameInfo.hash) = [some "a", some "h", some "h"] ∧
    dup_pass c5_env_boundary c5_frames = c5_frames ∧
    ∀ g ∈ dup_pass c5_env_boundary c5_frames, g.type = "original" := by
  have hconf : pair_confirmed c5_env_boundary 1 2 = false := by
    have h1 : ¬ (DUPLICATION_SSIM_CONFIRM < c5_env_boundary.ssimPair 1 2) := by
      norm_num [c5_env_boundary, DUPLICATION_SSIM_CONFIRM]
    simp [pair_confirmed, h1]
  have hall : allPairs c5_frames = [(1, 2)] := by decide
  have happ : ∀ f : FrameInfo, applyPairs c5_env_boundary (allPairs c5_frames) f = f := by
    intro f
    rw [hall]
    unfold applyPairs
    simp only [List.foldl_cons, List.foldl_nil]
    unfold pairFun
    rw [hconf, Bool.and_false]
    simp
  have hpass : dup_pass c5_env_boundary c5_frames = c5_frames := by
    rw [dup_pass_eq_map]
    calc c5_frames.map (applyPairs c5_env_boundary (allPairs c5_frames))
        = c5_frames.map id := by
          apply List.map_congr_left
          intro f _
          exact happ f
      _ = c5_frames := List.map_id c5_frames
  refine ⟨by norm_num [c5_env_boundary, DUPLICATION_SSIM_CONFIRM], rfl, by decide,
    by decide, hpass, ?_⟩
  rw [hpass]
  decide

/-- An environment reporting SSIM 0.95 and 15 inliers, the scenario of
the claim. -/
def c5_env_good : Env :=
  { img := fun _ => some c5_img,
    ssimPair := fun _ _ => 95 / 100,
    sift := fun _ _ =>
      { success := true, inliers := some 15, good_matches := 20, inlier_ratio := 3 / 4 },
    ela := fun _ => none }

/-- Claim C5 witness: the amended theorem applied to the concrete group
(frames 1 and 2 sharing hash h, frame 2 the later member) under the
scenario environment. -/
theorem c5_duplication_witness :
    dup_pass c5_env_good c5_frames =
      c5_frames.map (applyPairs c5_env_good (allPairs c5_frames)) ∧
    (pair_confirmed c5_env_good 1 2 = true ↔
      (DUPLICATION_SSIM_CONFIRM < c5_env_good.ssimPair 1 2 ∧
        (c5_env_good.sift 1 2).success = true ∧
        SIFT_MIN_MATCH_COUNT ≤ (c5_env_good.sift 1 2).inliers.getD 0)) ∧
    (pair_confirmed c5_env_good 1 2 = true →
      applyPairs c5_env_good (allPairs c5_frames) (mkFrame 2 2 (some "h")) =
        dup_update 1 (c5_env_good.ssimPair 1 2) (c5_env_good.sift 1 2)
          (mkFrame 2 2 (some "h")) ∧
      (sintesis_step c5_env_good
        (applyPairs c5_env_good (allPairs c5_frames) (mkFrame 2 2 (some "h")))).type =
        "anomaly_duplication" ∧
      (sintesis_step c5_env_good
        (applyPairs c5_env_good (allPairs c5_frames)
          (mkFrame 2 2 (some "h")))).evidence_obj.confidence = "SANGAT TINGGI" ∧
      numAt (sintesis_step c5_env_good
        (applyPairs c5_env_good (allPairs c5_frames)
          (mkFrame 2 2 (some "h")))).evidence_obj.metrics "source_frame" = some ((1 : Nat) : ℚ)) ∧
    (¬ pair_confirmed c5_env_good 1 2 = true →
      applyPairs c5_env_good (allPairs c5_frames) (mkFrame 2 2 (some "h")) =
        mkFrame 2 2 (some "h")) :=
  c5_duplication c5_env_good c5_frames "h" 1 2 [2] (mkFrame 2 2 (some "h"))
    (by decide) (by decide) (by decide) rfl
    (by norm_num [pair_precheck, c5_env_good, c5_img])

/-! ## Claim C1 -/

/-- Three frames for the baseline comparison: frame 0 present in the
baseline, frames 1 and 2 absent from it and sharing one hash. -/
def c1_frames : List FrameInfo :=
  [mkFrame 0 0 (some "b"), mkFrame 1 1 (some "h"), mkFrame 2 2 (some "h")]

/-- Claim C1 counterexample: after the baseline pass, frames 1 and 2 are
anomaly_insertion; the later duplication pass then reclassifies frame 2
(a confirmed later duplicate of frame 1) to anomaly_duplication, so the
insertion verdict is NOT final for a frame that also matches a
duplication candidate. -/
theorem c1_counterexample :
    (baseline_pass ["b"] c1_frames).map FrameInfo.type =
      ["original", "anomaly_insertion", "anomaly_insertion"] ∧
    (dup_pass c5_env_good (baseline_pass ["b"] c1_frames)).map FrameInfo.type =
      ["original", "anomaly_insertion", "anomaly_duplication"] := by
  have hg : (pair_precheck c5_env_good 1 2 && pair_confirmed c5_env_good 1 2) = true := by
    have h1 : pair_precheck c5_env_good 1 2 = true := by
      norm_num [pair_precheck, c5_env_good, c5_img]
    have h2 : pair_confirmed c5_env_good 1 2 = true := by
      norm_num [pair_confirmed, c5_env_good, DUPLICATION_SSIM_CONFIRM, SIFT_MIN_MATCH_COUNT]
    rw [h1, h2]
    rfl
  have hall : allPairs (baseline_pass ["b"] c1_frames) = [(1, 2)] := by decide
  refine ⟨by decide, ?_⟩
  rw [dup_pass_eq_map, hall]
  have hx : ∀ f : FrameInfo, applyPairs c5_env_good [(1, 2)] f =
      pairFun c5_env_good (1, 2) f := fun f => rfl
  have h0 : pairFun c5_env_good (1, 2) (insertion_check ["b"] (mkFrame 0 0 (some "b"))) =
      insertion_check ["b"] (mkFrame 0 0 (some "b")) :=
    pairFun_ne _ _ _ (by decide)
  have h1 : pairFun c5_env_good (1, 2) (insertion_check ["b"] (mkFrame 1 1 (some "h"))) =
      insertion_check ["b"] (mkFrame 1 1 (some "h")) :=
    pairFun_ne _ _ _ (by decide)
  have h2 : (pairFun c5_env_good (1, 2) (insertion_check ["b"] (mkFrame 2 2 (some "h")))).type =
      "anomaly_duplication" := by
    unfold pairFun
    rw [hg, if_pos rfl, if_pos (by decide)]
    rfl
  simp only [baseline_pass, c1_frames, List.map_cons, List.map_nil, hx, h0, h1]
  rw [List.cons.injEq, List.cons.injEq, List.cons.injEq]
  exact ⟨by decide, by decide, h2, rfl⟩

/-- Claim C1 as amended: a frame whose hash is absent from the baseline
set is classified anomaly_insertion with confidence forced SANGAT TINGGI;
none of the three discontinuity detectors (SSIM drop, optical-flow
spike, K-Means scene change) ever changes any frame's classification or
confidence, and the evidence-synthesis pass keeps an insertion frame
classified insertion at SANGAT TINGGI; only the duplication pass may
reclassify such a frame (to anomaly_duplication, as the counterexample
shows), and even then the confidence stays SANGAT TINGGI. -/
theorem c1_insertion_final (base : List String) (env : Env) (f : FrameInfo) (hsh : String)
    (hhash : f.hash = some hsh) (habs : hsh ∉ base) :
    (insertion_check base f).type = "anomaly_insertion" ∧
    (insertion_check base f).evidence_obj.confidence = "SANGAT TINGGI" ∧
    (insertion_check base f).evidence_obj.reasons =
      f.evidence_obj.reasons ++ ["Frame tidak ada di baseline"] ∧
    (∀ fp fc : FrameInfo, (ssim_check fp fc).type = fc.type ∧
      (ssim_check fp fc).evidence_obj.confidence = fc.evidence_obj.confidence) ∧
    (∀ (median_flow mad_flow : ℚ) (fc : FrameInfo),
      (flow_check median_flow mad_flow fc).type = fc.type ∧
      (flow_check median_flow mad_flow fc).evidence_obj.confidence =
        fc.evidence_obj.confidence) ∧
    (∀ fp fc : FrameInfo, (cluster_check fp fc).type = fc.type ∧
      (cluster_check fp fc).evidence_obj.confidence = fc.evidence_obj.confidence) ∧
    (∀ g : FrameInfo, g.type = "anomaly_insertion" → g.evidence_obj.reasons ≠ [] →
      (sintesis_step env g).type = "anomaly_insertion" ∧
      (sintesis_step env g).evidence_obj.confidence = "SANGAT TINGGI") := by
  have hins : insertion_check base f =
      { f with
        type := "anomaly_insertion",
        evidence_obj := { f.evidence_obj with
          reasons := f.evidence_obj.reasons ++ ["Frame tidak ada di baseline"],
          confidence := "SANGAT TINGGI" } } := by
    unfold insertion_check
    rw [hhash]
    simp only [if_pos habs]
  refine ⟨by rw [hins], by rw [hins], by rw [hins], ?_, ?_, ?_, ?_⟩
  · intro fp fc
    unfold ssim_check
    cases fp.ssim_to_prev with
    | none => exact ⟨rfl, rfl⟩
    | some sp =>
      cases fc.ssim_to_prev with
      | none => exact ⟨rfl, rfl⟩
      | some sc =>
        simp only
        split_ifs <;> exact ⟨rfl, rfl⟩
  · intro median_flow mad_flow fc
    unfold flow_check
    cases fc.optical_flow_mag with
    | none => exact ⟨rfl, rfl⟩
    | some v =>
      simp only
      split_ifs <;> exact ⟨rfl, rfl⟩
  · intro fp fc
    unfold cluster_check
    cases fc.color_cluster with
    | none => exact ⟨rfl, rfl⟩
    | some cc =>
      cases fp.color_cluster with
      | none => exact ⟨rfl, rfl⟩
      | some cp =>
        simp only
        split_ifs <;> exact ⟨rfl, rfl⟩
  · intro g hty hre
    have hs := sintesis_dup_or_ins env g (Or.inr hty) hre
    exact ⟨by rw [hs.1, hty], hs.2.1⟩

/-- Claim C1 witness: the amended theorem applied to frame 1 of the
concrete run (hash h, absent from baseline b), with the synthesis clause
exercised on the inserted frame itself. -/
theorem c1_insertion_final_witness :
    (insertion_check ["b"] (mkFrame 1 1 (some "h"))).type = "anomaly_insertion" ∧
    (insertion_check ["b"] (mkFrame 1 1 (some "h"))).evidence_obj.confidence =
      "SANGAT TINGGI" ∧
    (insertion_check ["b"] (mkFrame 1 1 (some "h"))).evidence_obj.reasons =
      (mkFrame 1 1 (some "h")).evidence_obj.reasons ++ ["Frame tidak ada di baseline"] ∧
    (∀ fp fc : FrameInfo, (ssim_check fp fc).type = fc.type ∧
      (ssim_check fp fc).evidence_obj.confidence = fc.evidence_obj.confidence) ∧
    (∀ (median_flow mad_flow : ℚ) (fc : FrameInfo),
      (flow_check median_flow mad_flow fc).type = fc.type ∧
      (flow_check median_flow mad_flow fc).evidence_obj.confidence =
        fc.evidence_obj.confidence) ∧
    (∀ fp fc : FrameInfo, (cluster_check fp fc).type = fc.type ∧
      (cluster_check fp fc).evidence_obj.confidence = fc.evidence_obj.confidence) ∧
    (∀ g : FrameInfo, g.type = "anomaly_insertion" → g.evidence_obj.reasons ≠ [] →
      (sintesis_step c5_env_good g).type = "anomaly_insertion" ∧
      (sintesis_step c5_env_good g).evidence_obj.confidence = "SANGAT TINGGI") :=
  c1_insertion_final ["b"] c5_env_good (mkFrame 1 1 (some "h")) "h" rfl (by decide)

/-! ## Claim C9 -/

/-- The confidence tier the classifier assigns from a reason count of at
least 1: RENDAH for 1, SEDANG for 2, TINGGI for more. -/
def reason_tier (n : Nat) : String :=
  if 2 < n then "TINGGI" else if 1 < n then "SEDANG" else "RENDAH"

/-- The single-step ELA escalation map. -/
def escalate1 (c : String) : String :=
  if c = "SEDANG" then "TINGGI" else if c = "TINGGI" then "SANGAT TINGGI" else c

/-- The regional ELA step never changes a frame's classification type. -/
lemma ela_step_type (env : Env) (g : FrameInfo) : (ela_step env g).type = g.type := by
  unfold ela_step
  by_cases hguard : (g.evidence_obj.confidence = "SEDANG" ∨ g.evidence_obj.confidence = "TINGGI" ∨
      g.evidence_obj.confidence = "SANGAT TINGGI") ∧
      ¬ (g.type = "anomaly_duplication" ∨ g.type = "anomaly_insertion")
  · rw [if_pos hguard]
    cases henv : env.ela g.index with
    | none => rfl
    | some p =>
      cases p with
      | mk max_diff arr =>
        simp only
        split_ifs <;> rfl
  · rw [if_neg hguard]

/-- The regional ELA step keeps the confidence or raises it by exactly
the single-step escalation map. -/
lemma ela_step_conf (env : Env) (g : FrameInfo) :
    (ela_step env g).evidence_obj.confidence = g.evidence_obj.confidence ∨
    (ela_step env g).evidence_obj.confidence = escalate1 g.evidence_obj.confidence := by
  unfold ela_step
  by_cases hguard : (g.evidence_obj.confidence = "SEDANG" ∨ g.evidence_obj.confidence = "TINGGI" ∨
      g.evidence_obj.confidence = "SANGAT TINGGI") ∧
      ¬ (g.type = "anomaly_duplication" ∨ g.type = "anomaly_insertion")
  · rw [if_pos hguard]
    cases henv : env.ela g.index with
    | none => exact Or.inl rfl
    | some p =>
      cases p with
      | mk max_diff arr =>
        simp only
        by_cases hc : 0 < (analyze_ela_regions arr 50).suspicious_count
        · rw [if_pos hc]
          by_cases hc5 : 5 < (analyze_ela_regions arr 50).suspicious_count
          · right
            simp only [if_pos hc5]
            rfl
          · left
            simp only [if_neg hc5]
        · rw [if_neg hc]
          exact Or.inl rfl
  · rw [if_neg hguard]
    exact Or.inl rfl

/-- The regional ELA step skips frames of RENDAH confidence entirely. -/
lemma ela_step_rendah (env : Env) (g : FrameInfo)
    (hc : g.evidence_obj.confidence = "RENDAH") : ela_step env g = g := by
  unfold ela_step
  rw [if_neg]
  rintro ⟨hone, -⟩
  rw [hc] at hone
  rcases hone with hbad | hbad | hbad <;> exact absurd hbad (by decide)

/-- What the classifier does to an original frame with at least one
reason: type anomaly_discontinuity, confidence from the reason count. -/
lemma classify_frame_original (f : FrameInfo) (hty : f.type = "original")
    (hre : f.evidence_obj.reasons ≠ []) :
    classify_frame f =
      { f with
        type := "anomaly_discontinuity",
        evidence_obj := { f.evidence_obj with
          confidence := reason_tier f.evidence_obj.reasons.length } } := by
  unfold classify_frame
  rw [if_neg hre]
  simp only [if_pos hty]
  rw [if_neg (by decide : ¬ ("anomaly_discontinuity" = "anomaly_duplication" ∨
    "anomaly_discontinuity" = "anomaly_insertion"))]
  rfl

/-- A frame entering the synthesis pass with two discontinuity reasons. -/
def c9_frame : FrameInfo :=
  { mkFrame 0 0 none with
    evidence_obj := { reasons := ["Penurunan Drastis SSIM", "Lonjakan Aliran Optik"],
                      metrics := [], confidence := "N/A" } }

/-- An environment whose ELA collaborator reports one suspicious cell
(between 1 and 5, so no escalation) for every frame. -/
def c9_env : Env :=
  { img := fun _ => none,
    ssimPair := fun _ _ => 0,
    sift := fun _ _ => { success := false, inliers := none, good_matches := 0, inlier_ratio := 0 },
    ela := fun _ => some (120, [[200]]) }

/-- The single bright cell of the c9 difference array is suspicious and
it is the only one. -/
lemma c9_ana : (analyze_ela_regions [[(200 : ℚ)]] 50).suspicious_count = 1 := by
  unfold analyze_ela_regions
  have h1 : gridStarts 1 50 = [0] := by decide
  simp only [List.length_cons, List.length_nil, List.headD]
  rw [h1]
  have h2 : cellRegion [[(200 : ℚ)]] 0 0 50 = [200] := by norm_num [cellRegion]
  simp only [List.flatMap_cons, List.flatMap_nil, List.append_nil, h2]
  norm_num [listMax]

/-- Claim C9 counterexample: the frame enters the synthesis pass with two
reasons, so the classifier assigns SEDANG; the ELA analysis then appends
a third reason WITHOUT recomputing the tier (and with only one suspicious
cell there is no escalation either), so the frame ends the pass with 3
distinct reasons but confidence SEDANG, not the TINGGI (or higher)
required by the claim for more than 2 reasons. -/
theorem c9_counterexample :
    (sintesis_step c9_env c9_frame).evidence_obj.reasons =
      ["Penurunan Drastis SSIM", "Lonjakan Aliran Optik", "Anomali Kompresi (ELA)"] ∧
    (sintesis_step c9_env c9_frame).evidence_obj.reasons.length = 3 ∧
    (sintesis_step c9_env c9_frame).evidence_obj.reasons.Nodup ∧
    (sintesis_step c9_env c9_frame).type = "anomaly_discontinuity" ∧
    (sintesis_step c9_env c9_frame).evidence_obj.confidence = "SEDANG" ∧
    "SEDANG" ≠ "TINGGI" ∧ "SEDANG" ≠ "SANGAT TINGGI" := by
  have hcls : classify_frame c9_frame =
      { c9_frame with
        type := "anomaly_discontinuity",
        evidence_obj := { reasons := ["Penurunan Drastis SSIM", "Lonjakan Aliran Optik"],
                          metrics := [], confidence := "SEDANG" } } := by decide
  have hstep : sintesis_step c9_env c9_frame =
      { c9_frame with
        type := "anomaly_discontinuity",
        evidence_obj := { reasons := ["Penurunan Drastis SSIM", "Lonjakan Aliran Optik",
                                      "Anomali Kompresi (ELA)"],
                          metrics := [("ela_max_difference", MVal.num 120),
                                      ("ela_suspicious_regions", MVal.num ((1 : Nat) : ℚ))],
                          confidence := "SEDANG" } } := by
    unfold sintesis_step
    rw [hcls]
    unfold ela_step
    rw [if_pos (by exact ⟨Or.inl rfl, by decide⟩)]
    simp only [c9_env]
    rw [c9_ana]
    norm_num [dictSet]
    decide
  rw [hstep]
  exact ⟨rfl, rfl, by decide, rfl, rfl, by decide, by decide⟩

/-- Claim C9 as amended: at the end of the synthesis pass, a frame with
zero reasons stays classified original; a duplication or insertion frame
keeps its type and is always SANGAT TINGGI; any other frame with at
least one reason becomes anomaly_discontinuity and its confidence is the
tier of its PRE-ELA reason count (RENDAH for 1, SEDANG for 2, TINGGI for
more) possibly raised by exactly the single-step ELA escalation — the
ELA-appended reason itself does not enter the count; a 1-reason frame is
always RENDAH (it is never eligible for ELA); and the tier mapping is
monotone in the reason count. -/
theorem c9_confidence_tiers (env : Env) (f : FrameInfo)
    (hre : f.type ≠ "original" → f.evidence_obj.reasons ≠ []) :
    (f.evidence_obj.reasons = [] → (sintesis_step env f).type = "original") ∧
    ((f.type = "anomaly_duplication" ∨ f.type = "anomaly_insertion") →
      (sintesis_step env f).type = f.type ∧
      (sintesis_step env f).evidence_obj.confidence = "SANGAT TINGGI") ∧
    (f.type = "original" → f.evidence_obj.reasons ≠ [] →
      (sintesis_step env f).type = "anomaly_discontinuity" ∧
      ((sintesis_step env f).evidence_obj.confidence =
          reason_tier f.evidence_obj.reasons.length ∨
        (sintesis_step env f).evidence_obj.confidence =
          escalate1 (reason_tier f.evidence_obj.reasons.length)) ∧
      (f.evidence_obj.reasons.length = 1 →
        (sintesis_step env f).evidence_obj.confidence = "RENDAH")) ∧
    (∀ n1 n2 : Nat, n1 ≤ n2 →
      conf_hierarchy (reason_tier n1) ≤ conf_hierarchy (reason_tier n2)) := by
  refine ⟨?_, ?_, ?_, ?_⟩
  · intro hre0
    have hty0 : f.type = "original" := by
      by_contra hne
      exact (hre hne) hre0
    unfold sintesis_step
    have hcf : classify_frame f = f := by
      unfold classify_frame
      rw [if_pos hre0]
    rw [hcf, ela_step_type, hty0]
  · intro hdi
    have hne : f.type ≠ "original" := by
      rcases hdi with hh | hh <;> rw [hh] <;> decide
    have hs := sintesis_dup_or_ins env f hdi (hre hne)
    exact ⟨hs.1, hs.2.1⟩
  · intro hty0 hre0
    unfold sintesis_step
    rw [classify_frame_original f hty0 hre0]
    refine ⟨by rw [ela_step_type], ?_, ?_⟩
    · exact ela_step_conf env _
    · intro h1
      rw [ela_step_rendah]
      · simp only [h1]
        rfl
      · simp only [h1]
        rfl
  · intro n1 n2 h12
    by_cases ha : 2 < n1
    · have hb : 2 < n2 := by omega
      simp [reason_tier, ha, hb]
    · by_cases hc : 1 < n1
      · have h1 : reason_tier n1 = "SEDANG" := by simp [reason_tier, ha, hc]
        rw [h1]
        by_cases hd : 2 < n2
        · rw [show reason_tier n2 = "TINGGI" from by simp [reason_tier, hd]]
          simp [conf_hierarchy]
        · have he : 1 < n2 := by omega
          rw [show reason_tier n2 = "SEDANG" from by simp [reason_tier, hd, he]]
      · have h1 : reason_tier n1 = "RENDAH" := by simp [reason_tier, ha, hc]
        rw [h1]
        have h2 : conf_hierarchy "RENDAH" = 1 := by simp [conf_hierarchy]
        rw [h2]
        unfold reason_tier
        split_ifs <;> simp [conf_hierarchy]

/-- Claim C9 witness: the amended theorem applied to the two-reason frame
of the counterexample environment. -/
theorem c9_confidence_tiers_witness :
    (c9_frame.evidence_obj.reasons = [] →
      (sintesis_step c9_env c9_frame).type = "original") ∧
    ((c9_frame.type = "anomaly_duplication" ∨ c9_frame.type = "anomaly_insertion") →
      (sintesis_step c9_env c9_frame).type = c9_frame.type ∧
      (sintesis_step c9_env c9_frame).evidence_obj.confidence = "SANGAT TINGGI") ∧
    (c9_frame.type = "original" → c9_frame.evidence_obj.reasons ≠ [] →
      (sintesis_step c9_env c9_frame).type = "anomaly_discontinuity" ∧
      ((sintesis_step c9_env c9_frame).evidence_obj.confidence =
          reason_tier c9_frame.evidence_obj.reasons.length ∨
        (sintesis_step c9_env c9_frame).evidence_obj.confidence =
          escalate1 (reason_tier c9_frame.evidence_obj.reasons.length)) ∧
      (c9_frame.evidence_obj.reasons.length = 1 →
        (sintesis_step c9_env c9_frame).evidence_obj.confidence = "RENDAH")) ∧
    (∀ n1 n2 : Nat, n1 ≤ n2 →
      conf_hierarchy (reason_tier n1) ≤ conf_hierarchy (reason_tier n2)) :=
  c9_confidence_tiers c9_env c9_frame (fun hne => absurd rfl hne)

/-! ## Claim C10 -/

/-- Claim C10: when a candidate pair fails the precheck (an image fails
to load, the shapes differ, or the first image has zero data range), the
pair is skipped before SSIM is consulted: the targeted later frame is
left untouched for EVERY possible SSIM collaborator, hence is never
classified anomaly_duplication even though it shares a hash with the
group head; the theorem also decodes the precheck condition. -/
theorem c10_precheck_skip (env : Env) (fs : List FrameInfo) (h : String)
    (idx1 idx2 : Nat) (rest : List Nat) (f : FrameInfo)
    (hnd : (fs.map FrameInfo.index).Nodup)
    (hgrp : (h, idx1 :: rest) ∈ dup_candidates fs)
    (hmem : idx2 ∈ rest)
    (hfi : f.index = idx2)
    (hpre : pair_precheck env idx1 idx2 = false) :
    (pair_precheck env idx1 idx2 = true ↔
      ∃ im1 im2, env.img idx1 = some im1 ∧ env.img idx2 = some im2 ∧
        im1.rows = im2.rows ∧ im1.cols = im2.cols ∧ im1.maxVal - im1.minVal ≠ 0) ∧
    (∀ g : Nat → Nat → ℚ,
      applyPairs { env with ssimPair := g } (allPairs fs) f = f) ∧
    dup_pass env fs = fs.map (applyPairs env (allPairs fs)) ∧
    applyPairs env (allPairs fs) f = f ∧
    (applyPairs env (allPairs fs) f).type = f.type := by
  obtain ⟨l1, l2, hsplit, h1, h2⟩ :=
    allPairs_unique_split fs h idx1 idx2 rest hnd hgrp hmem
  have hgen : ∀ g : Nat → Nat → ℚ,
      applyPairs { env with ssimPair := g } (allPairs fs) f = f := by
    intro g
    rw [hsplit]
    rw [applyPairs_single_target { env with ssimPair := g } l1 l2 idx1 idx2 f hfi h1 h2]
    unfold pairFun
    have hpre2 : pair_precheck { env with ssimPair := g } idx1 idx2 = false := hpre
    rw [hpre2, Bool.false_and]
    simp
  have hself : applyPairs env (allPairs fs) f = f := by
    have := hgen env.ssimPair
    exact this
  refine ⟨?_, hgen, dup_pass_eq_map env fs, hself, by rw [hself]⟩
  unfold pair_precheck
  cases h1i : env.img idx1 with
  | none =>
    simp only [h1i]
    constructor
    · intro hbad
      exact absurd hbad (by decide)
    · rintro ⟨im1, im2, hbad, -⟩
      exact absurd hbad (by simp)
  | some im1 =>
    cases h2i : env.img idx2 with
    | none =>
      simp only [h2i]
      constructor
      · intro hbad
        exact absurd hbad (by decide)
      · rintro ⟨im1a, im2, -, hbad, -⟩
        exact absurd hbad (by simp)
    | some im2 =>
      simp only [h1i, h2i, decide_eq_true_eq]
      constructor
      · rintro ⟨ha, hb, hc⟩
        exact ⟨im1, im2, rfl, rfl, ha, hb, hc⟩
      · rintro ⟨im1a, im2a, him1, him2, ha, hb, hc⟩
        injection him1 with him1
        injection him2 with him2
        subst him1
        subst him2
        exact ⟨ha, hb, hc⟩

/-- An environment whose first image of the shared-hash group is
perfectly uniform (max equals min): zero data range. -/
def c10_env : Env :=
  { img := fun _ => some { rows := 2, cols := 2, maxVal := 5, minVal := 5 },
    ssimPair := fun _ _ => 95 / 100,
    sift := fun _ _ =>
      { success := true, inliers := some 15, good_matches := 20, inlier_ratio := 3 / 4 },
    ela := fun _ => none }

/-- Claim C10 witness: the theorem applied to the concrete group (frames
1 and 2 sharing hash h) under the uniform-image environment. -/
theorem c10_precheck_skip_witness :
    (pair_precheck c10_env 1 2 = true ↔
      ∃ im1 im2, c10_env.img 1 = some im1 ∧ c10_env.img 2 = some im2 ∧
        im1.rows = im2.rows ∧ im1.cols = im2.cols ∧ im1.maxVal - im1.minVal ≠ 0) ∧
    (∀ g : Nat → Nat → ℚ,
      applyPairs { c10_env with ssimPair := g } (allPairs c5_frames)
        (mkFrame 2 2 (some "h")) = mkFrame 2 2 (some "h")) ∧
    dup_pass c10_env c5_frames =
      c5_frames.map (applyPairs c10_env (allPairs c5_frames)) ∧
    applyPairs c10_env (allPairs c5_frames) (mkFrame 2 2 (some "h")) =
      mkFrame 2 2 (some "h") ∧
    (applyPairs c10_env (allPairs c5_frames) (mkFrame 2 2 (some "h"))).type =
      (mkFrame 2 2 (some "h")).type :=
  c10_precheck_skip c10_env c5_frames "h" 1 2 [2] (mkFrame 2 2 (some "h"))
    (by decide) (by decide) (by decide) rfl
    (by norm_num [pair_precheck, c10_env])

/-! ## Claim C6 -/

/-- Claim C6: the FERM per-frame technical severity of an anomalous frame
with a nonempty metric map is the sum of the normalized recognized
metrics that are present (ssim_drop doubled, the absolute flow z-score
divided by 10, the sift inlier ratio as-is, the ELA max difference
divided by 200, each of the scaled terms capped at 1) divided by the
total number of metric entries and clamped at 1; a frame with no metrics
falls back to the fixed constant of its confidence tier; and the
resulting severity never exceeds 1. -/
theorem c6_frame_severity (ev : Evidence) :
    frame_severity ev =
      (if ev.metrics = [] then confidence_fallback_severity ev.confidence
       else min 1
        (((match numAt ev.metrics "ssim_drop" with
           | some v => min 1 (v * 2)
           | none => 0) +
          (match numAt ev.metrics "optical_flow_z_score" with
           | some v => min 1 (|v| / 10)
           | none => 0) +
          (match numAt ev.metrics "sift_inlier_ratio" with
           | some v => v
           | none => 0) +
          (match numAt ev.metrics "ela_max_difference" with
           | some v => min 1 (v / 200)
           | none => 0)) / (ev.metrics.length : ℚ))) ∧
    frame_severity ev ≤ 1 ∧
    confidence_fallback_severity "SANGAT TINGGI" = 9 / 10 ∧
    confidence_fallback_severity "TINGGI" = 7 / 10 ∧
    confidence_fallback_severity "SEDANG" = 5 / 10 ∧
    confidence_fallback_severity "RENDAH" = 3 / 10 ∧
    confidence_fallback_severity "N/A" = 1 / 10 := by
  have hfb : ∀ s, confidence_fallback_severity s ≤ 1 := by
    intro s
    unfold confidence_fallback_severity
    split_ifs <;> norm_num
  refine ⟨rfl, ?_, by simp [confidence_fallback_severity], by simp [confidence_fallback_severity],
    by simp [confidence_fallback_severity], by simp [confidence_fallback_severity],
    by simp [confidence_fallback_severity]⟩
  unfold frame_severity
  by_cases h : ev.metrics = []
  · rw [if_pos h]
    exact hfb _
  · rw [if_neg h]
    exact min_le_left _ _

/-! ## Claim C7 -/

/-- Characterization of the suspicious-region list: a record with origin
(y, x) occurs exactly for grid origins whose nonempty cell has mean above
30 or max above 100. -/
lemma suspicious_region_exists_iff (arr : List (List ℚ)) (g : Nat) (y x : Nat)
    (hy : y ∈ gridStarts arr.length g) (hx : x ∈ gridStarts (arr.headD []).length g)
    (hne : cellRegion arr y x g ≠ []) :
    (∃ r ∈ (analyze_ela_regions arr g).suspicious_regions, r.y = y ∧ r.x = x) ↔
      ((cellRegion arr y x g).sum / ((cellRegion arr y x g).length : ℚ) > 30 ∨
        listMax (cellRegion arr y x g) > 100) := by
  constructor
  · rintro ⟨r, hr, hry, hrx⟩
    simp only [analyze_ela_regions, List.mem_flatMap] at hr
    obtain ⟨y1, hy1, x1, hx1, hr⟩ := hr
    by_cases hlen : (cellRegion arr y1 x1 g).length = 0
    · rw [if_pos hlen] at hr
      exact absurd hr (List.not_mem_nil r)
    · rw [if_neg hlen] at hr
      by_cases hcond : (cellRegion arr y1 x1 g).sum / ((cellRegion arr y1 x1 g).length : ℚ) > 30 ∨
          listMax (cellRegion arr y1 x1 g) > 100
      · rw [if_pos hcond] at hr
        rw [List.mem_singleton] at hr
        subst hr
        simp only at hry hrx
        rw [hry, hrx] at hcond
        exact hcond
      · rw [if_neg hcond] at hr
        exact absurd hr (List.not_mem_nil r)
  · intro hcond
    have hlen : ¬ (cellRegion arr y x g).length = 0 := by
      intro h0
      exact hne (List.length_eq_zero.mp h0)
    refine ⟨⟨x, y, (cellRegion arr y x g).sum / ((cellRegion arr y x g).length : ℚ),
      listMax (cellRegion arr y x g),
      if (cellRegion arr y x g).sum / ((cellRegion arr y x g).length : ℚ) > 50
      then "high" else "medium"⟩, ?_, rfl, rfl⟩
    simp only [analyze_ela_regions, List.mem_flatMap]
    refine ⟨y, hy, x, hx, ?_⟩
    rw [if_neg hlen, if_pos hcond]
    exact List.mem_singleton_self _

/-- Claim C7: for every frame analyzed by the regional compression pass
(at least SEDANG confidence, not duplication/insertion, ELA data
available), a grid cell is suspicious iff its mean exceeds 30 or its max
exceeds 100; a positive suspicious count adds the ELA reason and the
max-difference and region-count metrics; a count above 5 escalates the
confidence exactly one tier (SEDANG to TINGGI, TINGGI to SANGAT TINGGI),
and the confidence never rises by more than one tier. -/
theorem c7_ela_regional (env : Env) (f : FrameInfo) (max_diff : ℚ) (arr : List (List ℚ))
    (hconf : f.evidence_obj.confidence = "SEDANG" ∨ f.evidence_obj.confidence = "TINGGI" ∨
      f.evidence_obj.confidence = "SANGAT TINGGI")
    (htype : ¬ (f.type = "anomaly_duplication" ∨ f.type = "anomaly_insertion"))
    (hela : env.ela f.index = some (max_diff, arr)) :
    (∀ y ∈ gridStarts arr.length 50, ∀ x ∈ gridStarts (arr.headD []).length 50,
      cellRegion arr y x 50 ≠ [] →
      ((∃ r ∈ (analyze_ela_regions arr 50).suspicious_regions, r.y = y ∧ r.x = x) ↔
        ((cellRegion arr y x 50).sum / ((cellRegion arr y x 50).length : ℚ) > 30 ∨
          listMax (cellRegion arr y x 50) > 100))) ∧
    (0 < (analyze_ela_regions arr 50).suspicious_count →
      "Anomali Kompresi (ELA)" ∈ (ela_step env f).evidence_obj.reasons ∧
      numAt (ela_step env f).evidence_obj.metrics "ela_max_difference" = some max_diff ∧
      numAt (ela_step env f).evidence_obj.metrics "ela_suspicious_regions" =
        some ((analyze_ela_regions arr 50).suspicious_count : ℚ)) ∧
    (5 < (analyze_ela_regions arr 50).suspicious_count →
      (ela_step env f).evidence_obj.confidence =
        (if f.evidence_obj.confidence = "SEDANG" then "TINGGI"
         else if f.evidence_obj.confidence = "TINGGI" then "SANGAT TINGGI"
         else f.evidence_obj.confidence)) ∧
    conf_hierarchy (ela_step env f).evidence_obj.confidence ≤
      conf_hierarchy f.evidence_obj.confidence + 1 := by
  have hstep : ela_step env f =
      (if 0 < (analyze_ela_regions arr 50).suspicious_count then
        { f with evidence_obj := { f.evidence_obj with
            reasons :=
              if "Anomali Kompresi (ELA)" ∈ f.evidence_obj.reasons then f.evidence_obj.reasons
              else f.evidence_obj.reasons ++ ["Anomali Kompresi (ELA)"],
            metrics :=
              dictSet (dictSet f.evidence_obj.metrics "ela_max_difference" (MVal.num max_diff))
                "ela_suspicious_regions" (MVal.num ((analyze_ela_regions arr 50).suspicious_count)),
            confidence :=
              if 5 < (analyze_ela_regions arr 50).suspicious_count then
                if f.evidence_obj.confidence = "SEDANG" then "TINGGI"
                else if f.evidence_obj.confidence = "TINGGI" then "SANGAT TINGGI"
                else f.evidence_obj.confidence
              else f.evidence_obj.confidence } }
      else f) := by
    unfold ela_step
    rw [if_pos ⟨hconf, htype⟩, hela]
  refine ⟨?_, ?_, ?_, ?_⟩
  · intro y hy x hx hne
    exact suspicious_region_exists_iff arr 50 y x hy hx hne
  · intro hcount
    rw [hstep, if_pos hcount]
    refine ⟨?_, ?_, ?_⟩
    · by_cases hin : "Anomali Kompresi (ELA)" ∈ f.evidence_obj.reasons
      · simp only [if_pos hin]
        exact hin
      · simp only [if_neg hin]
        simp
    · unfold numAt
      rw [dictGet_dictSet_ne _ _ _ _ (by decide), dictGet_dictSet_self]
    · unfold numAt
      rw [dictGet_dictSet_self]
  · intro hcount5
    have hcount : 0 < (analyze_ela_regions arr 50).suspicious_count := by omega
    rw [hstep, if_pos hcount]
    simp only [if_pos hcount5]
  · rw [hstep]
    by_cases hcount : 0 < (analyze_ela_regions arr 50).suspicious_count
    · rw [if_pos hcount]
      simp only
      by_cases hcount5 : 5 < (analyze_ela_regions arr 50).suspicious_count
      · rw [if_pos hcount5]
        rcases hconf with h | h | h <;> rw [h] <;> simp [conf_hierarchy]
      · rw [if_neg hcount5]
        omega
    · rw [if_neg hcount]
      omega

/-- A frame eligible for the regional ELA pass: SEDANG confidence,
discontinuity type, two prior reasons. -/
def c7_frame : FrameInfo :=
  { mkFrame 0 0 none with
    type := "anomaly_discontinuity",
    evidence_obj := { reasons := ["Penurunan Drastis SSIM", "Lonjakan Aliran Optik"],
                      metrics := [], confidence := "SEDANG" } }

/-- An environment whose ELA collaborator reports one bright cell for
frame 0. -/
def c7_env : Env :=
  { img := fun _ => none,
    ssimPair := fun _ _ => 0,
    sift := fun _ _ => { success := false, inliers := none, good_matches := 0, inlier_ratio := 0 },
    ela := fun i => if i = 0 then some (120, [[200]]) else none }

/-- Claim C7 witness: the theorem applied to the concrete eligible frame
and environment. -/
theorem c7_ela_regional_witness :
    (∀ y ∈ gridStarts [[(200 : ℚ)]].length 50,
      ∀ x ∈ gridStarts ([[(200 : ℚ)]].headD []).length 50,
      cellRegion [[(200 : ℚ)]] y x 50 ≠ [] →
      ((∃ r ∈ (analyze_ela_regions [[(200 : ℚ)]] 50).suspicious_regions, r.y = y ∧ r.x = x) ↔
        ((cellRegion [[(200 : ℚ)]] y x 50).sum / ((cellRegion [[(200 : ℚ)]] y x 50).length : ℚ) > 30 ∨
          listMax (cellRegion [[(200 : ℚ)]] y x 50) > 100))) ∧
    (0 < (analyze_ela_regions [[(200 : ℚ)]] 50).suspicious_count →
      "Anomali Kompresi (ELA)" ∈ (ela_step c7_env c7_frame).evidence_obj.reasons ∧
      numAt (ela_step c7_env c7_frame).evidence_obj.metrics "ela_max_difference" = some 120 ∧
      numAt (ela_step c7_env c7_frame).evidence_obj.metrics "ela_suspicious_regions" =
        some ((analyze_ela_regions [[(200 : ℚ)]] 50).suspicious_count : ℚ)) ∧
    (5 < (analyze_ela_regions [[(200 : ℚ)]] 50).suspicious_count →
      (ela_step c7_env c7_frame).evidence_obj.confidence =
        (if c7_frame.evidence_obj.confidence = "SEDANG" then "TINGGI"
         else if c7_frame.evidence_obj.confidence = "TINGGI" then "SANGAT TINGGI"
         else c7_frame.evidence_obj.confidence)) ∧
    conf_hierarchy (ela_step c7_env c7_frame).evidence_obj.confidence ≤
      conf_hierarchy c7_frame.evidence_obj.confidence + 1 :=
  c7_ela_regional c7_env c7_frame 120 [[(200 : ℚ)]]
    (by decide) (by decide) rfl

/-! ## Claim C8 -/

/-- Claim C8: the severity score of a localized event (with its duration
set to end timestamp minus start timestamp, as the localizer does) equals
the base severity of its type times the confidence multiplier times the
duration bonus times the frame-count bonus, clamped to the interval from
0 to 1; the score always lies in that interval, and the base and
multiplier tables are the claimed ones. -/
theorem c8_event_severity (e : EventLoc) :
    calculate_event_severity (enhance_event e) =
      min 1 (max 0 (event_type_base_severity e.event * confidence_multiplier e.confidence *
        (if 5 < e.end_ts - e.start_ts then 12 / 10
         else if 2 < e.end_ts - e.start_ts then 11 / 10 else 1) *
        (if 10 < e.frame_count then 11 / 10 else 1))) ∧
    0 ≤ calculate_event_severity (enhance_event e) ∧
    calculate_event_severity (enhance_event e) ≤ 1 ∧
    event_type_base_severity "anomaly_insertion" = 8 / 10 ∧
    event_type_base_severity "anomaly_duplication" = 6 / 10 ∧
    event_type_base_severity "anomaly_discontinuity" = 5 / 10 ∧
    event_type_base_severity "anomaly_other" = 3 / 10 ∧
    confidence_multiplier "SANGAT TINGGI" = 12 / 10 ∧
    confidence_multiplier "TINGGI" = 1 ∧
    confidence_multiplier "SEDANG" = 8 / 10 ∧
    confidence_multiplier "RENDAH" = 6 / 10 ∧
    confidence_multiplier "N/A" = 5 / 10 := by
  refine ⟨?_, ?_, ?_, by simp [event_type_base_severity], by simp [event_type_base_severity],
    by simp [event_type_base_severity], by simp [event_type_base_severity],
    by simp [confidence_multiplier], by simp [confidence_multiplier],
    by simp [confidence_multiplier], by simp [confidence_multiplier],
    by simp [confidence_multiplier]⟩
  · unfold calculate_event_severity enhance_event
    simp only
    split_ifs <;> ring_nf
  · unfold calculate_event_severity
    exact le_min (by norm_num) (le_max_left 0 _)
  · unfold calculate_event_severity
    exact min_le_left _ _
